import Mathlib

/-!
# Verification of the tmrl-rnn replay memory and backpressure training loop

Shallow embedding of `src/tmrl/custom/custom_memories.py` and
`src/tmrl/training_offline.py`.

The replay memories store data in `self.data`, a Python list of per-field
lists ("columns").  Column 0 holds integer global indices, the remaining
columns hold payload values (actions, speeds, lidar frames, dones, rewards,
infos).  We model a cell of a column as `Entry V`: either an integer index
or an opaque payload value of type `V`.

Python list primitives (indexing with negative wrap-around raising
`IndexError` when out of range, slices that clamp and never raise,
`np.stack` raising `ValueError` on an empty list) are modelled exactly.
`np.float32` is modelled as an abstract conversion function `f32` passed as
a parameter; no claim depends on its numeric behaviour.
-/

set_option linter.unusedVariables false
set_option maxRecDepth 100000
set_option synthInstance.maxSize 512

/-- A cell of one of the columns of `self.data`: either a global integer
index (column 0) or an opaque payload value. -/
inductive Entry (V : Type) where
  | idx (n : ℤ)
  | val (v : V)
deriving DecidableEq, Repr

/-- One raw sample `(act, (speed, lidar), rew, done, info)` as received by
`MemoryTMNFLidar.append_buffer` (`b[0]`, `b[1][0]`, `b[1][1]`, `b[2]`,
`b[3]`, `b[4]`). -/
structure Sample (V : Type) where
  act : V
  speed : V
  lidar : V
  rew : V
  dn : V
  inf : V
deriving DecidableEq, Repr

/-- Errors that the Python code can raise during extraction. -/
inductive PyErr where
  | indexError
  | valueError
deriving DecidableEq, Repr

instance instDecEqExcept {ε α : Type} [DecidableEq ε] [DecidableEq α] :
    DecidableEq (Except ε α)
  | .ok x, .ok y =>
    if h : x = y then isTrue (congrArg Except.ok h)
    else isFalse (fun hc => h (by cases hc; rfl))
  | .error x, .error y =>
    if h : x = y then isTrue (congrArg Except.error h)
    else isFalse (fun hc => h (by cases hc; rfl))
  | .ok x, .error y => isFalse (fun hc => Except.noConfusion hc)
  | .error x, .ok y => isFalse (fun hc => Except.noConfusion hc)

/-- Normalisation of one bound of a Python slice `l[a:b]` over a list of
length `n`: negative bounds count from the end, and both bounds are clamped
into `[0, n]`. -/
def pySliceIdx (n : ℕ) (i : ℤ) : ℕ :=
  if i < 0 then ((n : ℤ) + i).toNat else min i.toNat n

/-- Python slice `l[a:b]` (step 1): clamps, never raises. -/
def pySlice {α : Type} (l : List α) (a b : ℤ) : List α :=
  let a2 := pySliceIdx l.length a
  let b2 := pySliceIdx l.length b
  (l.drop a2).take (b2 - a2)

/-- Python indexing `l[i]`: negative indices wrap once from the end; an
index out of `[-n, n)` raises `IndexError`. -/
def pyGet {α : Type} (l : List α) (i : ℤ) : Except PyErr α :=
  let j : ℤ := if i < 0 then i + l.length else i
  if 0 ≤ j then
    match l.get? j.toNat with
    | some x => .ok x
    | none => .error .indexError
  else .error .indexError

/-- `np.stack` on a Python list: raises `ValueError` when the list is
empty, otherwise returns the stacked sequence (modelled as the list
itself). -/
def npStack {α : Type} (l : List α) : Except PyErr (List α) :=
  if l.isEmpty then .error .valueError else .ok l

/-- Read a column entry with a junk default (used only at positions proved
to be in range). -/
def eGet {V : Type} (l : List (Entry V)) (i : ℕ) : Entry V :=
  l.getD i (.idx 0)

/-- State of a `MemoryTMNFLidar`: the construction parameters and the
mutable `self.data` list of columns. -/
structure MemLidar (V : Type) where
  imgs_obs : ℕ
  act_buf_len : ℕ
  memory_size : ℕ
  data : List (List (Entry V))
deriving DecidableEq, Repr

namespace MemLidar

variable {V : Type}

/-- `self.min_samples = max(self.imgs_obs, self.act_buf_len)`. -/
def min_samples (m : MemLidar V) : ℕ := max m.imgs_obs m.act_buf_len

/-- `self.start_imgs_offset = max(0, self.min_samples - self.imgs_obs)`
(ℕ-subtraction models the `max(0, ...)`). -/
def start_imgs_offset (m : MemLidar V) : ℕ := m.min_samples - m.imgs_obs

/-- `self.start_acts_offset = max(0, self.min_samples - self.act_buf_len)`. -/
def start_acts_offset (m : MemLidar V) : ℕ := m.min_samples - m.act_buf_len

/-- Column `j` of `self.data` (`self.data[j]`; positions used by the code
are proved in range wherever it matters). -/
def col (m : MemLidar V) (j : ℕ) : List (Entry V) := m.data.getD j []

/-- Number of stored rows, `len(self.data[0])` (0 when no columns exist). -/
def rowCount (m : MemLidar V) : ℕ := (m.data.headD []).length

/-- `MemoryTMNF.__len__`: 0 when `self.data` is empty, otherwise
`len(self.data[0]) - self.min_samples - 1` clamped below at 0
(ℕ-subtraction models the `if res < 0: return 0`). -/
def lenMem (m : MemLidar V) : ℕ :=
  if m.data.length = 0 then 0
  else (m.data.headD []).length - (m.min_samples + 1)

/-- `self.data[0][-1]` read as an integer, as done by `append_buffer` to
compute `first_data_idx`.  The fallthrough arm corresponds to a Python
`IndexError`/`TypeError` and is unreachable whenever `__len__() > 0` holds
on a store whose column 0 holds index entries. -/
def lastIdxOf (c : List (Entry V)) : ℤ :=
  match c.getLast? with
  | some (.idx k) => k
  | _ => 0

/-- `self.data[j] += dj`: extends column `j` in place (no-op beyond the end
of `self.data`, where Python would raise; unreachable in the states the
theorems quantify over). -/
def addTo (d : List (List (Entry V))) (j : ℕ) (dj : List (Entry V)) :
    List (List (Entry V)) :=
  d.set j (d.getD j [] ++ dj)

/-- `self.data[j] = self.data[j][to_trim:]` for `j = 0..6`. -/
def trimCol (d : List (List (Entry V))) (j : ℕ) (t : ℕ) :
    List (List (Entry V)) :=
  d.set j ((d.getD j []).drop t)

/-- The seven per-field columns `d0..d6` built from the incoming buffer:
indexes, actions, speeds, lidar, dones, rewards, infos (in the order of the
source). -/
def mkD0 (first : ℤ) (buf : List (Sample V)) : List (Entry V) :=
  (List.range buf.length).map (fun (i : ℕ) => Entry.idx (first + (i : ℤ)))

def mkD1 (buf : List (Sample V)) : List (Entry V) := buf.map (fun b => .val b.act)
def mkD2 (buf : List (Sample V)) : List (Entry V) := buf.map (fun b => .val b.speed)
def mkD3 (buf : List (Sample V)) : List (Entry V) := buf.map (fun b => .val b.lidar)
def mkD4 (buf : List (Sample V)) : List (Entry V) := buf.map (fun b => .val b.dn)
def mkD5 (buf : List (Sample V)) : List (Entry V) := buf.map (fun b => .val b.rew)
def mkD6 (buf : List (Sample V)) : List (Entry V) := buf.map (fun b => .val b.inf)

/-- `MemoryTMNFLidar.append_buffer`.  Faithful to the source, including its
use of `self.__len__()` (the usable length, not the raw row count) in the
`first_data_idx` computation, in the branch between extending existing
columns and appending seven fresh columns, and in the trim amount
`to_trim = self.__len__() - self.memory_size`.  The trim touches columns
0–6 only, exactly as written. -/
def append_buffer (m : MemLidar V) (buf : List (Sample V)) : MemLidar V :=
  let first : ℤ := if m.lenMem > 0 then lastIdxOf (m.data.headD []) + 1 else 0
  let d0 := mkD0 first buf
  let d1 := mkD1 buf
  let d2 := mkD2 buf
  let d3 := mkD3 buf
  let d4 := mkD4 buf
  let d5 := mkD5 buf
  let d6 := mkD6 buf
  let data1 :=
    if m.lenMem > 0 then
      addTo (addTo (addTo (addTo (addTo (addTo (addTo m.data 0 d0) 1 d1) 2 d2)
        3 d3) 4 d4) 5 d5) 6 d6
    else
      m.data ++ [d0, d1, d2, d3, d4, d5, d6]
  let m1 : MemLidar V := { m with data := data1 }
  let to_trim : ℤ := (m1.lenMem : ℤ) - (m.memory_size : ℤ)
  if to_trim > 0 then
    let t := to_trim.toNat
    { m1 with data :=
        trimCol (trimCol (trimCol (trimCol (trimCol (trimCol (trimCol m1.data
          0 t) 1 t) 2 t) 3 t) 4 t) 5 t) 6 t }
  else m1

/-- A memory as freshly constructed: parameters set, `self.data == []`. -/
def empty (imgs act msize : ℕ) : MemLidar V :=
  ⟨imgs, act, msize, []⟩

end MemLidar

/-- An augmented observation tuple `(speed, image_stack, action_buffer)`
as assembled by `get_transition` / `get_trajectory` (the Python `*acts`
spread is kept as one list component). -/
abbrev Obs (V : Type) := Entry V × List (Entry V) × List (Entry V)

/-- The return value of `MemoryTMNFLidar.get_transition`:
`(last_obs, new_act, rew, new_obs, done, info)`. -/
structure Transition (V : Type) where
  last_obs : Obs V
  new_act : Entry V
  rew : Entry V
  new_obs : Obs V
  dn : Entry V
  inf : Entry V
deriving DecidableEq, Repr

namespace MemLidar

variable {V : Type}

/-- `MemoryTMNFLidar.load_acts`:
`self.data[1][(item + self.start_acts_offset):(item + self.start_acts_offset + self.act_buf_len + 1)]`. -/
def load_acts (m : MemLidar V) (item : ℤ) : List (Entry V) :=
  pySlice (m.col 1) (item + m.start_acts_offset)
    (item + m.start_acts_offset + m.act_buf_len + 1)

/-- `MemoryTMNFLidar.load_imgs`: the analogous slice of `self.data[3]`
passed through `np.stack`. -/
def load_imgs (m : MemLidar V) (item : ℤ) : Except PyErr (List (Entry V)) :=
  npStack (pySlice (m.col 3) (item + m.start_imgs_offset)
    (item + m.start_imgs_offset + m.imgs_obs + 1))

/-- `MemoryTMNFLidar.get_transition`, with Python evaluation order:
`load_acts` (never raises), `load_imgs` (`ValueError` on an empty stack),
then the scalar reads `data[2][idx_last]`, `data[5][idx_now]`,
`data[1][idx_now]`, `data[2][idx_now]`, `data[4][idx_now]`,
`data[6][idx_now]` (each can raise `IndexError`).  `f32` models
`np.float32`. -/
def get_transition (m : MemLidar V) (f32 : Entry V → Entry V) (item : ℤ) :
    Except PyErr (Transition V) :=
  let idx_last : ℤ := item + m.min_samples - 1
  let idx_now : ℤ := item + m.min_samples
  let acts := m.load_acts item
  let last_act_buf := acts.dropLast
  let new_act_buf := acts.drop 1
  match m.load_imgs item with
  | .error e => .error e
  | .ok imgs =>
    match pyGet (m.col 2) idx_last with
    | .error e => .error e
    | .ok sLast =>
      match pyGet (m.col 5) idx_now with
      | .error e => .error e
      | .ok rawRew =>
        match pyGet (m.col 1) idx_now with
        | .error e => .error e
        | .ok newAct =>
          match pyGet (m.col 2) idx_now with
          | .error e => .error e
          | .ok sNow =>
            match pyGet (m.col 4) idx_now with
            | .error e => .error e
            | .ok dEnt =>
              match pyGet (m.col 6) idx_now with
              | .error e => .error e
              | .ok iEnt =>
                .ok ⟨(sLast, imgs.dropLast, last_act_buf), newAct, f32 rawRew,
                     (sNow, imgs.drop 1, new_act_buf), dEnt, iEnt⟩

end MemLidar

/-- State of a `TrajMemoryTMNFLidar` (same columns as `MemoryTMNFLidar`,
plus the `traj_len` parameter). -/
structure TrajMemLidar (V : Type) where
  imgs_obs : ℕ
  act_buf_len : ℕ
  traj_len : ℕ
  memory_size : ℕ
  data : List (List (Entry V))
deriving DecidableEq, Repr

namespace TrajMemLidar

variable {V : Type}

/-- `self.min_samples = max(imgs_obs, act_buf_len); self.min_samples += traj_len - 1`
(ℕ-subtraction; coincides with the source for every `traj_len ≥ 1`, the
only values the claims use). -/
def min_samples (m : TrajMemLidar V) : ℕ :=
  max m.imgs_obs m.act_buf_len + m.traj_len - 1

def start_imgs_offset (m : TrajMemLidar V) : ℕ := m.min_samples - m.imgs_obs

def start_acts_offset (m : TrajMemLidar V) : ℕ := m.min_samples - m.act_buf_len

def col (m : TrajMemLidar V) (j : ℕ) : List (Entry V) := m.data.getD j []

/-- `TrajMemoryTMNF.__len__` (same formula as `MemoryTMNF.__len__`, with
the trajectory `min_samples`). -/
def lenMem (m : TrajMemLidar V) : ℕ :=
  if m.data.length = 0 then 0
  else (m.data.headD []).length - (m.min_samples + 1)

/-- `TrajMemoryTMNFLidar.load_acts_traj`. -/
def load_acts_traj (m : TrajMemLidar V) (item : ℤ) : List (Entry V) :=
  pySlice (m.col 1) (item + m.start_acts_offset)
    (item + m.start_acts_offset + m.act_buf_len + m.traj_len)

/-- `TrajMemoryTMNFLidar.load_imgs_traj`. -/
def load_imgs_traj (m : TrajMemLidar V) (item : ℤ) :
    Except PyErr (List (Entry V)) :=
  npStack (pySlice (m.col 3) (item + m.start_imgs_offset)
    (item + m.start_imgs_offset + m.imgs_obs + m.traj_len))

end TrajMemLidar

/-- A Python list comprehension whose element expression may raise: the
elements are evaluated left to right and the first error aborts the
comprehension. -/
def exceptMap {A B : Type} (f : A -> Except PyErr B) : List A → Except PyErr (List B)
  | [] => .ok []
  | x :: xs =>
    match f x with
    | .error e => .error e
    | .ok y =>
      match exceptMap f xs with
      | .error e => .error e
      | .ok ys => .ok (y :: ys)

namespace TrajMemLidar

variable {V : Type}

/-- `TrajMemoryTMNFLidar.get_trajectory`: returns
`(augm_obs_traj, rew_traj, done_traj, info_traj)` — and nothing else.
Python evaluation order: `load_acts_traj`, `load_imgs_traj`, then the
`rew_traj`, `augm_obs_traj`, `done_traj`, `info_traj` comprehensions,
each indexing `idx_now + i` for `i < traj_len`. -/
def get_trajectory (m : TrajMemLidar V) (f32 : Entry V → Entry V) (item : ℤ) :
    Except PyErr (List (Obs V) × List (Entry V) × List (Entry V) × List (Entry V)) :=
  let idx_now : ℤ := item + m.min_samples
  let all_acts := m.load_acts_traj item
  match m.load_imgs_traj item with
  | .error e => .error e
  | .ok all_imgs =>
    match exceptMap
        (fun (i : ℕ) =>
          match pyGet (m.col 5) (idx_now + (i : ℤ)) with
          | .error e => .error e
          | .ok r => .ok (f32 r))
        (List.range m.traj_len) with
    | .error e => .error e
    | .ok rew_traj =>
      match exceptMap
          (fun (i : ℕ) =>
            match pyGet (m.col 2) (idx_now + (i : ℤ)) with
            | .error e => .error e
            | .ok sp =>
              .ok ((sp, pySlice all_imgs (1 + (i : ℤ)) ((m.imgs_obs : ℤ) + (i : ℤ) + 1),
                    pySlice all_acts (1 + (i : ℤ)) ((m.act_buf_len : ℤ) + (i : ℤ) + 1)) : Obs V))
          (List.range m.traj_len) with
      | .error e => .error e
      | .ok augm_obs_traj =>
        match exceptMap (fun (i : ℕ) => pyGet (m.col 4) (idx_now + (i : ℤ)))
            (List.range m.traj_len) with
        | .error e => .error e
        | .ok done_traj =>
          match exceptMap (fun (i : ℕ) => pyGet (m.col 6) (idx_now + (i : ℤ)))
              (List.range m.traj_len) with
          | .error e => .error e
          | .ok info_traj => .ok (augm_obs_traj, rew_traj, done_traj, info_traj)

end TrajMemLidar

/-- One raw sample for `MemoryTM2020.append_buffer`: `b[0]` (action),
`b[1][0..2]` (speed, gear, rpm), `b[2]` (reward), `b[3]` (done), `b[4]`
(info).  The compressed image `b[1][3]` is written to a PNG file on disk
and never enters `self.data`; the file write is a side effect outside the
store and is not modelled. -/
structure SampleTM (V : Type) where
  act : V
  speed : V
  gear : V
  rpm : V
  rew : V
  dn : V
  inf : V
deriving DecidableEq, Repr

/-- State of a `MemoryTM2020`. -/
structure MemTM2020 (V : Type) where
  imgs_obs : ℕ
  act_buf_len : ℕ
  memory_size : ℕ
  data : List (List (Entry V))
deriving DecidableEq, Repr

namespace MemTM2020

variable {V : Type}

def min_samples (m : MemTM2020 V) : ℕ := max m.imgs_obs m.act_buf_len

/-- `MemoryTM2020.__len__`: returns 0 when
`len(self.data) < self.min_samples + 1` (the number of *field-sequences*
compared against `min_samples + 1`), else
`max(0, len(self.data[0]) - min_samples - 1)`. -/
def lenMem (m : MemTM2020 V) : ℕ :=
  if m.data.length < m.min_samples + 1 then 0
  else (m.data.headD []).length - (m.min_samples + 1)

def lastIdxOf (c : List (Entry V)) : ℤ := MemLidar.lastIdxOf c

def addTo (d : List (List (Entry V))) (j : ℕ) (dj : List (Entry V)) :
    List (List (Entry V)) := MemLidar.addTo d j dj

def trimCol (d : List (List (Entry V))) (j : ℕ) (t : ℕ) :
    List (List (Entry V)) := MemLidar.trimCol d j t

/-- `MemoryTM2020.append_buffer`: eight columns
(indexes, actions, speeds, gears, rpms, dones, rewards, infos), with
indexes taken modulo `memory_size` (`(first_data_idx + i) % self.memory_size`;
Python `%` on a positive modulus is `Int.emod` here).  Same
`self.__len__() > 0` guard and `to_trim = self.__len__() - self.memory_size`
as the Lidar variant. -/
def append_buffer (m : MemTM2020 V) (buf : List (SampleTM V)) : MemTM2020 V :=
  let first : ℤ := if m.lenMem > 0 then lastIdxOf (m.data.headD []) + 1 else 0
  let d0 : List (Entry V) :=
    (List.range buf.length).map
      (fun (i : ℕ) => Entry.idx ((first + (i : ℤ)) % (m.memory_size : ℤ)))
  let d1 : List (Entry V) := buf.map (fun b => .val b.act)
  let d2 : List (Entry V) := buf.map (fun b => .val b.speed)
  let d3 : List (Entry V) := buf.map (fun b => .val b.gear)
  let d4 : List (Entry V) := buf.map (fun b => .val b.rpm)
  let d5 : List (Entry V) := buf.map (fun b => .val b.dn)
  let d6 : List (Entry V) := buf.map (fun b => .val b.rew)
  let d7 : List (Entry V) := buf.map (fun b => .val b.inf)
  let data1 :=
    if m.lenMem > 0 then
      addTo (addTo (addTo (addTo (addTo (addTo (addTo (addTo m.data 0 d0) 1 d1)
        2 d2) 3 d3) 4 d4) 5 d5) 6 d6) 7 d7
    else
      m.data ++ [d0, d1, d2, d3, d4, d5, d6, d7]
  let m1 : MemTM2020 V := { m with data := data1 }
  let to_trim : ℤ := (m1.lenMem : ℤ) - (m.memory_size : ℤ)
  if to_trim > 0 then
    let t := to_trim.toNat
    { m1 with data :=
        trimCol (trimCol (trimCol (trimCol (trimCol (trimCol (trimCol (trimCol
          m1.data 0 t) 1 t) 2 t) 3 t) 4 t) 5 t) 6 t) 7 t }
  else m1

def empty (imgs act msize : ℕ) : MemTM2020 V := ⟨imgs, act, msize, []⟩

end MemTM2020

/-- One raw sample for `MemoryCognifly.append_buffer`: `b[0]` (action),
`b[1][0..5]` (alt, vel, acc, tar, total_delay, total_delay_kappa), `b[2]`
(reward), `b[3]` (done), `b[4]` (info). -/
structure SampleCog (V : Type) where
  act : V
  alt : V
  vel : V
  acc : V
  tar : V
  dl : V
  dlk : V
  rew : V
  dn : V
  inf : V
deriving DecidableEq, Repr

/-- State of a `MemoryCognifly`. -/
structure MemCognifly (V : Type) where
  imgs_obs : ℕ
  act_buf_len : ℕ
  memory_size : ℕ
  data : List (List (Entry V))
deriving DecidableEq, Repr

namespace MemCognifly

variable {V : Type}

def min_samples (m : MemCognifly V) : ℕ := max m.imgs_obs m.act_buf_len

/-- `MemoryCognifly.__len__`: same shape as `MemoryTM2020.__len__`
(`len(self.data)`, the field-sequence count, compared against
`min_samples + 1`). -/
def lenMem (m : MemCognifly V) : ℕ :=
  if m.data.length < m.min_samples + 1 then 0
  else (m.data.headD []).length - (m.min_samples + 1)

/-- `MemoryCognifly.append_buffer`: eleven columns (indexes, actions, alt,
vel, acc, tar, del, del_k, dones, rewards, infos), indexes taken modulo
`memory_size`. -/
def append_buffer (m : MemCognifly V) (buf : List (SampleCog V)) : MemCognifly V :=
  let first : ℤ := if m.lenMem > 0 then MemLidar.lastIdxOf (m.data.headD []) + 1 else 0
  let d0 : List (Entry V) :=
    (List.range buf.length).map
      (fun (i : ℕ) => Entry.idx ((first + (i : ℤ)) % (m.memory_size : ℤ)))
  let cs : List (List (Entry V)) :=
    [d0, buf.map (fun b => .val b.act), buf.map (fun b => .val b.alt),
     buf.map (fun b => .val b.vel), buf.map (fun b => .val b.acc),
     buf.map (fun b => .val b.tar), buf.map (fun b => .val b.dl),
     buf.map (fun b => .val b.dlk), buf.map (fun b => .val b.dn),
     buf.map (fun b => .val b.rew), buf.map (fun b => .val b.inf)]
  let data1 :=
    if m.lenMem > 0 then
      (List.range 11).foldl (fun d j => MemLidar.addTo d j (cs.getD j [])) m.data
    else
      m.data ++ cs
  let m1 : MemCognifly V := { m with data := data1 }
  let to_trim : ℤ := (m1.lenMem : ℤ) - (m.memory_size : ℤ)
  if to_trim > 0 then
    let t := to_trim.toNat
    { m1 with data :=
        (List.range 11).foldl (fun d j => MemLidar.trimCol d j t) m1.data }
  else m1

def empty (imgs act msize : ℕ) : MemCognifly V := ⟨imgs, act, msize, []⟩

end MemCognifly

/-! ## The backpressure training loop (`TrainingOffline`)

`check_ratio` computes
`ratio = self.total_updates / self.total_samples if self.total_samples > 0.0 else -1.0`
and loops while `ratio > self.max_training_steps_per_env_step or ratio == -1.0`,
pulling one buffer per iteration via `update_buffer` and sleeping only when
the recomputed ratio is still over.  Python float division is modelled
exactly over ℚ.  The polling loop is modelled against the finite stream of
buffer sizes the interface will hand back: running out of stream means the
real loop is still polling (it never fails). -/

/-- `ratio = total_updates / total_samples if total_samples > 0 else -1.0`. -/
def ratioOrNeg (u s : ℕ) : ℚ := if 0 < s then (u : ℚ) / (s : ℚ) else -1

/-- The `STARVED` condition of `check_ratio`:
`ratio > max_training_steps_per_env_step or ratio == -1.0`. -/
def starvedQ (u s : ℕ) (mx : ℚ) : Prop :=
  ratioOrNeg u s > mx ∨ ratioOrNeg u s = -1

instance (u s : ℕ) (mx : ℚ) : Decidable (starvedQ u s mx) := by
  unfold starvedQ; infer_instance

/-- The `while` loop inside `check_ratio`, driven by the finite stream
`bufs` of buffer lengths that successive `retrieve_buffer()` calls return.
Each iteration ingests one buffer (`total_samples += len(buffer)`),
recomputes the ratio, and sleeps iff still starved.  Returns
`.ok (finalSamples, sleepStates)` when the loop exits (no longer starved),
where `sleepStates` lists the `total_samples` value at each sleep; returns
`.error samples` when the stream is exhausted while still starved (the real
loop would continue polling). -/
def pollLoop (u : ℕ) (mx : ℚ) (s : ℕ) : List ℕ → Except ℕ (ℕ × List ℕ)
  | [] => .error s
  | b :: rest =>
    let s2 := s + b
    if starvedQ u s2 mx then
      match pollLoop u mx s2 rest with
      | .ok (sf, sl) => .ok (sf, s2 :: sl)
      | .error sf => .error sf
    else .ok (s2, [])

/-- `TrainingOffline.check_ratio`: enters the polling loop iff the starved
condition holds, otherwise leaves `total_samples` unchanged. -/
def check_ratio (u : ℕ) (mx : ℚ) (s : ℕ) (bufs : List ℕ) : Except ℕ (ℕ × List ℕ) :=
  if starvedQ u s mx then pollLoop u mx s bufs else .ok (s, [])

/-- The inner loop of `TrainingOffline.run_epoch`, counters only: each
training step increments `total_updates` by one and is followed by a
`check_ratio` call (re-invoked after every single update).  `streams`
supplies the buffer-size stream available to the `check_ratio` call of each
step.  Returns the final counters and the list of observation points: for
each step, the state `(total_updates, total_samples)` right after the
update and the state right after the subsequent `check_ratio`. -/
def runRound (mx : ℚ) (u s : ℕ) : List (List ℕ) → Except ℕ (ℕ × ℕ × List (ℕ × ℕ))
  | [] => .ok (u, s, [])
  | bufs :: rest =>
    match check_ratio (u + 1) mx s bufs with
    | .ok (s2, _) =>
      match runRound mx (u + 1) s2 rest with
      | .ok (uf, sf, obs) => .ok (uf, sf, (u + 1, s) :: (u + 1, s2) :: obs)
      | .error sf => .error sf
    | .error sf => .error sf

/-- The counters and memory owned by a `TrainingOffline` instance. -/
structure TrainerState (V : Type) where
  memory : MemLidar V
  total_samples : ℕ
  total_updates : ℕ
deriving Repr

/-- Modelled from the spec: `MemoryDataloading.append` (base class, in
`tmrl/memory_dataloading.py`, not under `src/`) — §4.3 "Contract:
`append(buffer) ...` decompose each incoming Sample into its constituent
fields and bulk-append them into the Stream Store" — i.e. it delegates to
the subclass's `append_buffer`. -/
def memAppend {V : Type} (m : MemLidar V) (buf : List (Sample V)) : MemLidar V :=
  m.append_buffer buf

/-- `TrainingOffline.update_buffer`: appends the retrieved buffer to the
memory and advances `total_samples` by the buffer's length. -/
def update_buffer {V : Type} (st : TrainerState V) (buf : List (Sample V)) :
    TrainerState V :=
  { st with memory := memAppend st.memory buf,
            total_samples := st.total_samples + buf.length }

/-! ## Helper lemmas -/

lemma list_len7 {α : Type} (l : List α) (h : l.length = 7) :
    ∃ a b c d e f g, l = [a, b, c, d, e, f, g] := by
  rcases l with _ | ⟨a, _ | ⟨b, _ | ⟨c, _ | ⟨d, _ | ⟨e, _ | ⟨f, _ | ⟨g, _ | ⟨x, t⟩⟩⟩⟩⟩⟩⟩⟩ <;>
    simp only [List.length_cons, List.length_nil] at h <;>
    first
      | omega
      | exact ⟨a, b, c, d, e, f, g, rfl⟩

lemma getD_of_lt {α : Type} (l : List α) (j : ℕ) (d : α) (h : j < l.length) :
    l.getD j d = l.get ⟨j, h⟩ := by
  simp [List.getD_eq_getElem?_getD, List.getElem?_eq_getElem h]

lemma headD_append_of_ne {α : Type} (l l' : List α) (d : α) (h : l ≠ []) :
    (l ++ l').headD d = l.headD d := by
  cases l with
  | nil => exact absurd rfl h
  | cons a t => rfl

lemma set_getD_self {α : Type} (d : List α) (j : ℕ) (x : α) :
    d.set j (d.getD j x) = d := by
  induction d generalizing j with
  | nil => simp
  | cons a l ih =>
    cases j with
    | zero => simp
    | succ j =>
      simp only [List.getD_cons_succ]
      show a :: l.set j (l.getD j x) = a :: l
      rw [ih]

namespace MemLidar

variable {V : Type}

/-- Well-formed store: exactly the seven field-sequences of
`MemoryTMNFLidar`, all of the same length `n`. -/
def wf (m : MemLidar V) (n : ℕ) : Prop :=
  m.data.length = 7 ∧ ∀ c ∈ m.data, c.length = n

instance (m : MemLidar V) (n : ℕ) : Decidable (m.wf n) := by
  unfold wf; infer_instance

lemma wf_headD {m : MemLidar V} {n : ℕ} (h : m.wf n) :
    (m.data.headD []).length = n := by
  obtain ⟨h7, hall⟩ := h
  cases hd : m.data with
  | nil => rw [hd] at h7; simp at h7
  | cons a t =>
    simp only [List.headD_cons]
    exact hall a (by rw [hd]; exact List.mem_cons_self a t)

lemma wf_rowCount {m : MemLidar V} {n : ℕ} (h : m.wf n) : m.rowCount = n :=
  wf_headD h

lemma wf_lenMem {m : MemLidar V} {n : ℕ} (h : m.wf n) :
    m.lenMem = n - (m.min_samples + 1) := by
  have h7 := h.1
  unfold lenMem
  rw [wf_headD h]
  simp [h7]

lemma wf_col_length {m : MemLidar V} {n : ℕ} (h : m.wf n) (j : ℕ) (hj : j < 7) :
    (m.col j).length = n := by
  have hj' : j < m.data.length := h.1 ▸ hj
  unfold col
  rw [getD_of_lt _ _ _ hj']
  exact h.2 _ (List.get_mem _ _ _)

lemma mkD0_length (first : ℤ) (buf : List (Sample V)) :
    (mkD0 first buf).length = buf.length := by
  unfold mkD0
  rw [List.length_map, List.length_range]

lemma mkD1_length (buf : List (Sample V)) : (mkD1 buf).length = buf.length := by
  simp [mkD1]

lemma mkD2_length (buf : List (Sample V)) : (mkD2 buf).length = buf.length := by
  simp [mkD2]

lemma mkD3_length (buf : List (Sample V)) : (mkD3 buf).length = buf.length := by
  simp [mkD3]

lemma mkD4_length (buf : List (Sample V)) : (mkD4 buf).length = buf.length := by
  simp [mkD4]

lemma mkD5_length (buf : List (Sample V)) : (mkD5 buf).length = buf.length := by
  simp [mkD5]

lemma mkD6_length (buf : List (Sample V)) : (mkD6 buf).length = buf.length := by
  simp [mkD6]

/-- Computation of `append_buffer` on a freshly constructed (empty) store:
seven fresh columns are appended, then each is trimmed by
`usable_length_after_append - memory_size` (clamped at 0). -/
theorem append_buffer_empty_eq (imgs act msize : ℕ) (buf : List (Sample V)) :
    (⟨imgs, act, msize, []⟩ : MemLidar V).append_buffer buf =
      ⟨imgs, act, msize,
        [mkD0 0 buf, mkD1 buf, mkD2 buf, mkD3 buf, mkD4 buf, mkD5 buf,
         mkD6 buf].map
          (fun c => c.drop (buf.length - (max imgs act + 1) - msize))⟩ := by
  unfold append_buffer
  have hlen0 : (⟨imgs, act, msize, []⟩ : MemLidar V).lenMem = 0 := by
    simp [lenMem]
  have hlen1 :
      (⟨imgs, act, msize,
        [mkD0 (0 : ℤ) buf, mkD1 buf, mkD2 buf, mkD3 buf, mkD4 buf, mkD5 buf,
         mkD6 buf]⟩ : MemLidar V).lenMem = buf.length - (max imgs act + 1) := by
    simp [lenMem, min_samples, mkD0_length]
  simp only [hlen0, gt_iff_lt, lt_self_iff_false, if_false, List.nil_append,
    hlen1]
  by_cases htrim :
      (0 : ℤ) < ((buf.length - (max imgs act + 1) : ℕ) : ℤ) - (msize : ℤ)
  · rw [if_pos htrim]
    have ht : (((buf.length - (max imgs act + 1) : ℕ) : ℤ) - (msize : ℤ)).toNat
        = buf.length - (max imgs act + 1) - msize := Int.toNat_sub _ _
    simp only [trimCol, ht]
    simp [List.set]
  · rw [if_neg htrim]
    have ht : buf.length - (max imgs act + 1) - msize = 0 := by omega
    simp [ht]

/-- Computation of `append_buffer` on a well-formed store with positive
usable length: the seven columns are extended in place with the new block
(indices continuing at `last + 1`), then each is trimmed by
`usable_length_after_append - memory_size` (clamped at 0). -/
theorem append_buffer_good_eq (m : MemLidar V) (buf : List (Sample V)) (n : ℕ)
    (hwf : m.wf n) (hpos : 0 < m.lenMem) :
    m.append_buffer buf =
      ⟨m.imgs_obs, m.act_buf_len, m.memory_size,
        [m.col 0 ++ mkD0 (lastIdxOf (m.col 0) + 1) buf,
         m.col 1 ++ mkD1 buf, m.col 2 ++ mkD2 buf, m.col 3 ++ mkD3 buf,
         m.col 4 ++ mkD4 buf, m.col 5 ++ mkD5 buf, m.col 6 ++ mkD6 buf].map
          (fun c => c.drop
            (n + buf.length - (m.min_samples + 1) - m.memory_size))⟩ := by
  obtain ⟨i, a, s, d⟩ := m
  obtain ⟨c0, c1, c2, c3, c4, c5, c6, hd⟩ := list_len7 d hwf.1
  subst hd
  have h0 : c0.length = n := hwf.2 c0 (by simp)
  unfold append_buffer
  have hlen1 : (⟨i, a, s,
      [c0 ++ mkD0 (lastIdxOf c0 + 1) buf, c1 ++ mkD1 buf, c2 ++ mkD2 buf,
       c3 ++ mkD3 buf, c4 ++ mkD4 buf, c5 ++ mkD5 buf, c6 ++ mkD6 buf]⟩ :
      MemLidar V).lenMem = n + buf.length - (max i a + 1) := by
    simp [lenMem, min_samples, h0, mkD0_length]
  simp only [if_pos hpos, addTo, col, min_samples, List.headD_cons,
    List.getD_cons_zero, List.getD_cons_succ, List.set, hlen1, gt_iff_lt]
  by_cases htrim :
      (0 : ℤ) < ((n + buf.length - (max i a + 1) : ℕ) : ℤ) - (s : ℤ)
  · rw [if_pos htrim]
    have ht : (((n + buf.length - (max i a + 1) : ℕ) : ℤ) - (s : ℤ)).toNat
        = n + buf.length - (max i a + 1) - s := Int.toNat_sub _ _
    simp only [trimCol, ht, List.getD_cons_zero, List.getD_cons_succ, List.set]
    simp [List.set]
  · rw [if_neg htrim]
    have ht : n + buf.length - (max i a + 1) - s = 0 := by omega
    simp [ht]


/-- Computation of `append_buffer` on a non-empty store whose usable length
is 0 (`0 < row_count ≤ min_samples + 1`): the `self.__len__() > 0` guard
fails, so the code restarts `first_data_idx` at 0 and *appends seven fresh
columns* after the existing ones instead of extending them. -/
theorem append_buffer_stale_eq (m : MemLidar V) (buf : List (Sample V))
    (hne : m.data ≠ []) (hzero : m.lenMem = 0) :
    m.append_buffer buf =
      ⟨m.imgs_obs, m.act_buf_len, m.memory_size,
        m.data ++ [mkD0 0 buf, mkD1 buf, mkD2 buf, mkD3 buf, mkD4 buf,
          mkD5 buf, mkD6 buf]⟩ := by
  obtain ⟨i, a, s, d⟩ := m
  have hne' : d ≠ [] := hne
  have hd0 : d.length ≠ 0 := fun h => hne' (List.length_eq_zero.mp h)
  unfold append_buffer
  have hlen1 : (⟨i, a, s, d ++ [mkD0 (0 : ℤ) buf, mkD1 buf, mkD2 buf,
      mkD3 buf, mkD4 buf, mkD5 buf, mkD6 buf]⟩ : MemLidar V).lenMem = 0 := by
    unfold lenMem at hzero ⊢
    rw [headD_append_of_ne _ _ _ hne']
    simpa [hd0] using hzero
  simp only [hzero, gt_iff_lt, lt_self_iff_false, if_false, hlen1,
    Nat.cast_zero]
  have hneg : ¬ ((0 : ℤ) < (0 : ℤ) - (s : ℤ)) := by omega
  rw [if_neg hneg]

end MemLidar

/-! ## Concrete stores used by witnesses and counterexamples -/

/-- A sample whose six payload fields carry pairwise distinct values. -/
def natSample (i : ℕ) : Sample ℕ :=
  ⟨100 + i, 200 + i, 300 + i, 400 + i, 500 + i, 600 + i⟩

/-- A buffer of `k` consecutive concrete samples starting at `lo`. -/
def natBuf (lo k : ℕ) : List (Sample ℕ) :=
  (List.range k).map (fun i => natSample (lo + i))

/-- 150 samples appended to an empty Lidar memory of capacity 100. -/
def mem150 : MemLidar ℕ := (MemLidar.empty 4 1 100).append_buffer (natBuf 0 150)

/-- 50 samples appended to an empty Lidar memory of capacity 100. -/
def mem50 : MemLidar ℕ := (MemLidar.empty 4 1 100).append_buffer (natBuf 0 50)

/-- 100 further samples appended to `mem50` (150 appended in total). -/
def mem50x : MemLidar ℕ := mem50.append_buffer (natBuf 50 100)

/-- 10 samples appended to an empty Lidar memory (the concrete store of the
spec's extraction scenario: `imgs_obs=4, act_buf_len=1, memory_size=100`). -/
def mem10 : MemLidar ℕ := (MemLidar.empty 4 1 100).append_buffer (natBuf 0 10)

/-- 2 samples appended to an empty Lidar memory (row count below
`min_samples + 1`, so the usable length stays 0). -/
def memB2 : MemLidar ℕ := (MemLidar.empty 4 1 100).append_buffer (natBuf 0 2)

/-- 3 further samples appended to `memB2` while its usable length is 0. -/
def memB2B3 : MemLidar ℕ := memB2.append_buffer (natBuf 2 3)

/-! ## C1: capacity / trim bookkeeping of `append_buffer` -/

/-- **C1 (amended).**  `append_buffer` trims by
`usable_length_after_append - memory_size`, not by
`row_count_after_append - memory_size`.  After an append onto an empty
store, or onto a well-formed store with positive usable length: the number
of trimmed oldest rows is `max(0, row_count_raw - min_samples - 1 - memory_size)`
(ℕ-subtraction), the usable length (`__len__`) is at most `memory_size`,
`__len__ = max(0, row_count - min_samples - 1)`, the row count is bounded by
`memory_size + min_samples + 1` (not by `memory_size`), and all seven
field-sequences keep a common length. -/
theorem c1_capacity_trim {V : Type} (m : MemLidar V) (buf : List (Sample V))
    (h : m.data = [] ∨ (m.wf m.rowCount ∧ 0 < m.lenMem)) :
    (m.append_buffer buf).rowCount
        = m.rowCount + buf.length
          - (m.rowCount + buf.length - (m.min_samples + 1) - m.memory_size)
    ∧ (m.append_buffer buf).lenMem ≤ m.memory_size
    ∧ (m.append_buffer buf).lenMem
        = (m.append_buffer buf).rowCount - (m.min_samples + 1)
    ∧ (m.append_buffer buf).rowCount ≤ m.memory_size + m.min_samples + 1
    ∧ (m.append_buffer buf).wf ((m.append_buffer buf).rowCount) := by
  rcases h with hemp | ⟨hwf, hpos⟩
  · obtain ⟨i, a, s, d⟩ := m
    have hd : d = [] := hemp
    subst hd
    rw [MemLidar.append_buffer_empty_eq]
    simp [MemLidar.rowCount, MemLidar.lenMem, MemLidar.min_samples,
      MemLidar.wf, List.map_cons, List.map_nil, List.headD_cons,
      List.headD_nil, List.length_cons, List.length_nil, List.length_drop,
      MemLidar.mkD0_length, MemLidar.mkD1_length, MemLidar.mkD2_length,
      MemLidar.mkD3_length, MemLidar.mkD4_length, MemLidar.mkD5_length,
      MemLidar.mkD6_length, List.forall_mem_cons, List.not_mem_nil,
      false_implies, forall_const, and_true, List.mem_cons]
    repeat' apply And.intro
    all_goals omega
  · have hc0 : (m.col 0).length = m.rowCount := MemLidar.wf_col_length hwf 0 (by omega)
    have hc1 : (m.col 1).length = m.rowCount := MemLidar.wf_col_length hwf 1 (by omega)
    have hc2 : (m.col 2).length = m.rowCount := MemLidar.wf_col_length hwf 2 (by omega)
    have hc3 : (m.col 3).length = m.rowCount := MemLidar.wf_col_length hwf 3 (by omega)
    have hc4 : (m.col 4).length = m.rowCount := MemLidar.wf_col_length hwf 4 (by omega)
    have hc5 : (m.col 5).length = m.rowCount := MemLidar.wf_col_length hwf 5 (by omega)
    have hc6 : (m.col 6).length = m.rowCount := MemLidar.wf_col_length hwf 6 (by omega)
    have hlen := MemLidar.wf_lenMem hwf
    rw [MemLidar.append_buffer_good_eq m buf m.rowCount hwf hpos]
    rw [hlen] at hpos
    simp [MemLidar.rowCount, MemLidar.lenMem, MemLidar.min_samples,
      MemLidar.wf, List.map_cons, List.map_nil, List.headD_cons,
      List.headD_nil, List.length_cons, List.length_nil, List.length_drop,
      List.length_append, MemLidar.mkD0_length, MemLidar.mkD1_length,
      MemLidar.mkD2_length, MemLidar.mkD3_length, MemLidar.mkD4_length,
      MemLidar.mkD5_length, MemLidar.mkD6_length, List.forall_mem_cons,
      List.not_mem_nil, false_implies, forall_const, and_true, List.mem_cons,
      List.headD_eq_head?]
    simp only [MemLidar.rowCount, MemLidar.min_samples, List.headD_eq_head?]
      at hc0 hc1 hc2 hc3 hc4 hc5 hc6 hpos
    rw [hc0, hc1, hc2, hc3, hc4, hc5, hc6]
    repeat' apply And.intro
    all_goals omega

/-- **C1 counterexample.**  Appending 150 samples to an empty
`MemoryTMNFLidar` (`imgs_obs=4, act_buf_len=1, memory_size=100`) leaves 105
stored rows — more than `memory_size` — and trims only 150 − 105 = 45
oldest rows, not the 50 rows the claim predicts. -/
theorem c1_capacity_trim_cex :
    mem150.rowCount = 105 ∧ mem150.memory_size = 100
      ∧ 150 - mem150.rowCount = 45 := by decide

/-- **C1 witness**: the amended theorem applied to the concrete
150-sample append (the hypothesis is discharged by `Or.inl rfl`). -/
theorem c1_capacity_trim_witness :
    ((MemLidar.empty 4 1 100 : MemLidar ℕ).append_buffer (natBuf 0 150)).lenMem
      ≤ (MemLidar.empty 4 1 100 : MemLidar ℕ).memory_size :=
  (c1_capacity_trim (MemLidar.empty 4 1 100) (natBuf 0 150) (Or.inl rfl)).2.1

/-! ## C3: global index assignment -/

/-- **C3 (amended).**  Newly appended rows get indices
`previous_last_index + 1, +2, ...` and trimming only drops rows from the
front (never renumbering the survivors) — but only when the usable length
is positive.  When the usable length is 0 the code restarts indices at 0:
on an empty store this is the claim's "starting at 0", but on a *non-empty*
store with `row_count ≤ min_samples + 1` the index 0 is reused and seven
fresh columns are appended after the live ones.  With the trim of C1,
appending 150 samples (`imgs_obs=4, act_buf_len=1, memory_size=100`) leaves
index 45 — the 46th sample, not the 51st — as the first remaining row. -/
theorem c3_index_gapless (V : Type) :
    (∀ (m : MemLidar V) (buf : List (Sample V)) (n : ℕ),
      m.wf n → 0 < m.lenMem →
      (m.append_buffer buf).col 0
        = (m.col 0
            ++ MemLidar.mkD0 (MemLidar.lastIdxOf (m.col 0) + 1) buf).drop
            (n + buf.length - (m.min_samples + 1) - m.memory_size))
    ∧ (∀ (imgs act msize : ℕ) (buf : List (Sample V)),
        ((⟨imgs, act, msize, []⟩ : MemLidar V).append_buffer buf).col 0
          = (MemLidar.mkD0 0 buf).drop (buf.length - (max imgs act + 1) - msize))
    ∧ (∀ (m : MemLidar V) (buf : List (Sample V)),
        m.data ≠ [] → m.lenMem = 0 →
        (m.append_buffer buf).data
          = m.data ++ [MemLidar.mkD0 0 buf, MemLidar.mkD1 buf,
              MemLidar.mkD2 buf, MemLidar.mkD3 buf, MemLidar.mkD4 buf,
              MemLidar.mkD5 buf, MemLidar.mkD6 buf]) := by
  refine ⟨?_, ?_, ?_⟩
  · intro m buf n hwf hpos
    rw [MemLidar.append_buffer_good_eq m buf n hwf hpos]
    simp [MemLidar.col]
  · intro imgs act msize buf
    rw [MemLidar.append_buffer_empty_eq]
    simp [MemLidar.col]
  · intro m buf hne hzero
    rw [MemLidar.append_buffer_stale_eq m buf hne hzero]

/-- **C3 counterexample.**  Append 50 samples to an empty Lidar memory
(`imgs_obs=4, act_buf_len=1, memory_size=100`), then 100 more: the last
index before the second append is 49, so by the consecutive-index rule the
51st appended sample receives index 50; yet after the eviction of the
second append the first remaining row carries index 45, not 50. -/
theorem c3_index_gapless_cex :
    (mem50.col 0).getLast? = some (Entry.idx 49)
    ∧ (mem50x.col 0).head? = some (Entry.idx 45)
    ∧ (Entry.idx 45 : Entry ℕ) ≠ Entry.idx 50 := by decide

/-- **C3 witness**: the good-state clause applied to the concrete second
append of the scenario above. -/
theorem c3_index_gapless_witness :
    mem50x.col 0
      = (mem50.col 0
          ++ MemLidar.mkD0 (MemLidar.lastIdxOf (mem50.col 0) + 1)
            (natBuf 50 100)).drop
          (50 + (natBuf 50 100).length - (mem50.min_samples + 1)
            - mem50.memory_size) :=
  (c3_index_gapless ℕ).1 mem50 (natBuf 50 100) 50 (by decide) (by decide)

/-! ## C4: alignment invariant of `append_buffer` -/

/-- **C4 (the code violates the claim).**  Appending 2 samples to an empty
`MemoryTMNFLidar` (`imgs_obs=4, act_buf_len=1, memory_size=100`) and then 3
more — the second append happening while rows are stored but the usable
length is still 0 — leaves `self.data` with *fourteen* field-sequences of
unequal lengths (seven of length 2, then seven of length 3), violating the
invariant that the store always consists of exactly the seven aligned
field-sequences. -/
theorem c4_alignment_violated :
    memB2B3.data.length = 14
    ∧ memB2B3.data.map List.length
        = [2, 2, 2, 2, 2, 2, 2, 3, 3, 3, 3, 3, 3, 3] := by decide

/-! ## C10: the `__len__` field-sequence-count gate of `MemoryTM2020` and
`MemoryCognifly` -/

/-- Unfolded form of `MemoryTM2020.__len__` on a structure literal. -/
lemma lenTM_def {V : Type} (i a s : ℕ) (ds : List (List (Entry V))) :
    (⟨i, a, s, ds⟩ : MemTM2020 V).lenMem
      = if ds.length < max i a + 1 then 0
        else (ds.headD []).length - (max i a + 1) := rfl

/-- Unfolded form of `MemoryCognifly.__len__` on a structure literal. -/
lemma lenCog_def {V : Type} (i a s : ℕ) (ds : List (List (Entry V))) :
    (⟨i, a, s, ds⟩ : MemCognifly V).lenMem
      = if ds.length < max i a + 1 then 0
        else (ds.headD []).length - (max i a + 1) := rfl

/-- `MemoryTM2020.append_buffer` on an empty store whose parameters make
`min_samples ≥ 8`: the eight fresh columns are appended and no trim occurs
(the usable length stays 0). -/
theorem appendTM_empty_big {V : Type} (imgs act msize : ℕ)
    (buf : List (SampleTM V)) (h8 : 8 ≤ max imgs act) :
    (⟨imgs, act, msize, []⟩ : MemTM2020 V).append_buffer buf
      = ⟨imgs, act, msize,
          [(List.range buf.length).map
             (fun (i : ℕ) => Entry.idx (((0 : ℤ) + (i : ℤ)) % (msize : ℤ))),
           buf.map (fun b => .val b.act), buf.map (fun b => .val b.speed),
           buf.map (fun b => .val b.gear), buf.map (fun b => .val b.rpm),
           buf.map (fun b => .val b.dn), buf.map (fun b => .val b.rew),
           buf.map (fun b => .val b.inf)]⟩ := by
  unfold MemTM2020.append_buffer
  have hlen0 : (⟨imgs, act, msize, []⟩ : MemTM2020 V).lenMem = 0 := by
    rw [lenTM_def, if_pos (by simp)]
  have hlen1 : (⟨imgs, act, msize,
      [(List.range buf.length).map
         (fun (i : ℕ) => Entry.idx (((0 : ℤ) + (i : ℤ)) % (msize : ℤ))),
       buf.map (fun b => .val b.act), buf.map (fun b => .val b.speed),
       buf.map (fun b => .val b.gear), buf.map (fun b => .val b.rpm),
       buf.map (fun b => .val b.dn), buf.map (fun b => .val b.rew),
       buf.map (fun b => .val b.inf)]⟩ : MemTM2020 V).lenMem = 0 := by
    rw [lenTM_def]
    rw [if_pos (by simp only [List.length_cons, List.length_nil]; omega)]
  simp only [hlen0, gt_iff_lt, lt_self_iff_false, if_false, List.nil_append,
    hlen1, Nat.cast_zero]
  rw [if_neg (by omega : ¬ ((0 : ℤ) < (0 : ℤ) - (msize : ℤ)))]

/-- `MemoryCognifly.append_buffer` on an empty store whose parameters make
`min_samples ≥ 11`: the eleven fresh columns are appended and no trim
occurs. -/
theorem appendCog_empty_big {V : Type} (imgs act msize : ℕ)
    (buf : List (SampleCog V)) (h11 : 11 ≤ max imgs act) :
    (⟨imgs, act, msize, []⟩ : MemCognifly V).append_buffer buf
      = ⟨imgs, act, msize,
          [(List.range buf.length).map
             (fun (i : ℕ) => Entry.idx (((0 : ℤ) + (i : ℤ)) % (msize : ℤ))),
           buf.map (fun b => .val b.act), buf.map (fun b => .val b.alt),
           buf.map (fun b => .val b.vel), buf.map (fun b => .val b.acc),
           buf.map (fun b => .val b.tar), buf.map (fun b => .val b.dl),
           buf.map (fun b => .val b.dlk), buf.map (fun b => .val b.dn),
           buf.map (fun b => .val b.rew), buf.map (fun b => .val b.inf)]⟩ := by
  unfold MemCognifly.append_buffer
  have hlen0 : (⟨imgs, act, msize, []⟩ : MemCognifly V).lenMem = 0 := by
    rw [lenCog_def, if_pos (by simp)]
  have hlen1 : (⟨imgs, act, msize,
      [(List.range buf.length).map
         (fun (i : ℕ) => Entry.idx (((0 : ℤ) + (i : ℤ)) % (msize : ℤ))),
       buf.map (fun b => .val b.act), buf.map (fun b => .val b.alt),
       buf.map (fun b => .val b.vel), buf.map (fun b => .val b.acc),
       buf.map (fun b => .val b.tar), buf.map (fun b => .val b.dl),
       buf.map (fun b => .val b.dlk), buf.map (fun b => .val b.dn),
       buf.map (fun b => .val b.rew), buf.map (fun b => .val b.inf)]⟩ :
      MemCognifly V).lenMem = 0 := by
    rw [lenCog_def]
    rw [if_pos (by simp only [List.length_cons, List.length_nil]; omega)]
  simp only [hlen0, gt_iff_lt, lt_self_iff_false, if_false, List.nil_append,
    hlen1, Nat.cast_zero]
  rw [if_neg (by omega : ¬ ((0 : ℤ) < (0 : ℤ) - (msize : ℤ)))]

/-- **C10 (amended).**  `MemoryTM2020.__len__` and `MemoryCognifly.__len__`
return 0 whenever the number of field-sequences `len(self.data)` is below
`min_samples + 1`; a single populating append creates exactly 8
(resp. 11) field-sequences, so a `MemoryTM2020` with `imgs_obs ≥ 8` (resp.
a `MemoryCognifly` with `min_samples ≥ 11`) reports length 0 after its
first append, whatever the row count.  (The claim's "forever" fails:
further appends made while `__len__ == 0` append additional
field-sequences, after which `len(self.data)` can pass the gate and
`__len__` can become positive — see the counterexample.) -/
theorem c10_len_gate (V : Type) :
    (∀ m : MemTM2020 V, m.data.length < m.min_samples + 1 → m.lenMem = 0)
    ∧ (∀ m : MemCognifly V, m.data.length < m.min_samples + 1 → m.lenMem = 0)
    ∧ (∀ (imgs act msize : ℕ) (buf : List (SampleTM V)), 8 ≤ imgs →
        ((MemTM2020.empty imgs act msize : MemTM2020 V).append_buffer
          buf).lenMem = 0)
    ∧ (∀ (imgs act msize : ℕ) (buf : List (SampleCog V)), 11 ≤ max imgs act →
        ((MemCognifly.empty imgs act msize : MemCognifly V).append_buffer
          buf).lenMem = 0) := by
  refine ⟨?_, ?_, ?_, ?_⟩
  · intro m h
    unfold MemTM2020.lenMem
    rw [if_pos h]
  · intro m h
    unfold MemCognifly.lenMem
    rw [if_pos h]
  · intro imgs act msize buf himgs
    have h8 : 8 ≤ max imgs act := le_trans himgs (le_max_left _ _)
    rw [MemTM2020.empty, appendTM_empty_big imgs act msize buf h8, lenTM_def]
    rw [if_pos (by simp only [List.length_cons, List.length_nil]; omega)]
  · intro imgs act msize buf h11
    rw [MemCognifly.empty, appendCog_empty_big imgs act msize buf h11,
      lenCog_def]
    rw [if_pos (by simp only [List.length_cons, List.length_nil]; omega)]

/-- A concrete `MemoryTM2020` sample. -/
def natSampleTM (i : ℕ) : SampleTM ℕ :=
  ⟨100 + i, 200 + i, 300 + i, 400 + i, 500 + i, 600 + i, 700 + i⟩

/-- A buffer of `k` consecutive concrete TM2020 samples starting at `lo`. -/
def natBufTM (lo k : ℕ) : List (SampleTM ℕ) :=
  (List.range k).map (fun i => natSampleTM (lo + i))

/-- 20 samples appended to an empty `MemoryTM2020` with `imgs_obs = 8`. -/
def memTM20 : MemTM2020 ℕ := (MemTM2020.empty 8 1 1000).append_buffer (natBufTM 0 20)

/-- One further sample appended to `memTM20` while `__len__ == 0`. -/
def memTM20x : MemTM2020 ℕ := memTM20.append_buffer (natBufTM 20 1)

/-- **C10 counterexample.**  A `MemoryTM2020` with `imgs_obs = 8`
(`min_samples = 8 ≥ 8`) reports length 0 after a populating append of 20
samples — but after one more append (made while `__len__ == 0`, which
duplicates the eight field-sequences) `len(self.data) = 16` passes the
`min_samples + 1 = 9` gate and `__len__` becomes `20 - 9 = 11 ≠ 0`:
"reports length 0 forever" is false. -/
theorem c10_len_gate_cex :
    memTM20.lenMem = 0 ∧ memTM20x.data.length = 16
      ∧ memTM20x.lenMem = 11 := by decide

/-- **C10 witness**: the single-append clause applied to the concrete
20-sample append with `imgs_obs = 8`. -/
theorem c10_len_gate_witness :
    ((MemTM2020.empty 8 1 1000 : MemTM2020 ℕ).append_buffer
      (natBufTM 0 20)).lenMem = 0 :=
  (c10_len_gate ℕ).2.2.1 8 1 1000 (natBufTM 0 20) (by omega)

/-! ## Python-primitive lemmas for the extraction functions -/

lemma pySlice_of_range {α : Type} (l : List α) (a b : ℤ)
    (ha : 0 ≤ a) (hab : a ≤ b) (hb : b ≤ (l.length : ℤ)) :
    pySlice l a b = (l.drop a.toNat).take (b - a).toNat := by
  simp only [pySlice, pySliceIdx]
  rw [if_neg (by omega : ¬ a < 0), if_neg (by omega : ¬ b < 0)]
  rw [min_eq_left (by omega : a.toNat ≤ l.length),
    min_eq_left (by omega : b.toNat ≤ l.length)]
  have h1 : b.toNat - a.toNat = (b - a).toNat := by omega
  rw [h1]

lemma pyGet_ok {V : Type} (l : List (Entry V)) (i : ℕ) (h : i < l.length) :
    pyGet l (i : ℤ) = .ok (eGet l i) := by
  simp only [pyGet]
  rw [if_neg (by omega : ¬ ((i : ℤ)) < 0)]
  rw [if_pos (by omega : (0 : ℤ) ≤ (i : ℤ))]
  have h1 : ((i : ℤ)).toNat = i := by omega
  rw [h1, List.get?_eq_get h]
  simp [eGet, List.getD_eq_getElem?_getD, List.getElem?_eq_getElem h]

lemma pyGet_err_ge {α : Type} (l : List α) (i : ℤ)
    (h : (l.length : ℤ) ≤ i) :
    pyGet l i = .error .indexError := by
  simp only [pyGet]
  rw [if_neg (by omega : ¬ i < 0)]
  rw [if_pos (by omega : (0 : ℤ) ≤ i)]
  rw [List.get?_eq_none.mpr (by omega : l.length ≤ i.toNat)]

namespace MemLidar

variable {V : Type}

lemma sio_add (m : MemLidar V) : m.start_imgs_offset + m.imgs_obs = m.min_samples := by
  have := le_max_left m.imgs_obs m.act_buf_len
  simp only [start_imgs_offset, min_samples] at *
  omega

lemma sao_add (m : MemLidar V) : m.start_acts_offset + m.act_buf_len = m.min_samples := by
  have := le_max_right m.imgs_obs m.act_buf_len
  simp only [start_acts_offset, min_samples] at *
  omega

/-- Computation of `get_transition` on a well-formed store, for every item
whose windows fit (`item + min_samples + 1 ≤ n`, i.e. `0 ≤ item ≤ usable_length`):
the action window is the `act_buf_len + 1` stored actions starting at
`item + start_acts_offset`, the image window the `imgs_obs + 1` stored
images starting at `item + start_imgs_offset`, scalars are read at
`idx_last = item + min_samples - 1` and `idx_now = item + min_samples`. -/
theorem get_transition_spec (m : MemLidar V) (f32 : Entry V → Entry V)
    (n item : ℕ) (hwf : m.wf n) (hms : 1 ≤ m.min_samples)
    (hitem : item + m.min_samples + 1 ≤ n) :
    m.get_transition f32 (item : ℤ)
      = .ok ⟨(eGet (m.col 2) (item + m.min_samples - 1),
              (((m.col 3).drop (item + m.start_imgs_offset)).take
                (m.imgs_obs + 1)).dropLast,
              (((m.col 1).drop (item + m.start_acts_offset)).take
                (m.act_buf_len + 1)).dropLast),
             eGet (m.col 1) (item + m.min_samples),
             f32 (eGet (m.col 5) (item + m.min_samples)),
             (eGet (m.col 2) (item + m.min_samples),
              (((m.col 3).drop (item + m.start_imgs_offset)).take
                (m.imgs_obs + 1)).drop 1,
              (((m.col 1).drop (item + m.start_acts_offset)).take
                (m.act_buf_len + 1)).drop 1),
             eGet (m.col 4) (item + m.min_samples),
             eGet (m.col 6) (item + m.min_samples)⟩ := by
  have hsio := m.sio_add
  have hsao := m.sao_add
  have hl1 : (m.col 1).length = n := wf_col_length hwf 1 (by omega)
  have hl2 : (m.col 2).length = n := wf_col_length hwf 2 (by omega)
  have hl3 : (m.col 3).length = n := wf_col_length hwf 3 (by omega)
  have hl4 : (m.col 4).length = n := wf_col_length hwf 4 (by omega)
  have hl5 : (m.col 5).length = n := wf_col_length hwf 5 (by omega)
  have hl6 : (m.col 6).length = n := wf_col_length hwf 6 (by omega)
  have hacts : m.load_acts (item : ℤ)
      = ((m.col 1).drop (item + m.start_acts_offset)).take (m.act_buf_len + 1) := by
    unfold load_acts
    rw [pySlice_of_range _ _ _ (by omega) (by omega) (by rw [hl1]; push_cast; omega)]
    have e1 : ((item : ℤ) + (m.start_acts_offset : ℤ)).toNat
        = item + m.start_acts_offset := by omega
    have e2 : ((item : ℤ) + (m.start_acts_offset : ℤ) + (m.act_buf_len : ℤ) + 1
        - ((item : ℤ) + (m.start_acts_offset : ℤ))).toNat = m.act_buf_len + 1 := by
      omega
    rw [e1, e2]
  have himgsw : pySlice (m.col 3) ((item : ℤ) + (m.start_imgs_offset : ℤ))
      ((item : ℤ) + (m.start_imgs_offset : ℤ) + (m.imgs_obs : ℤ) + 1)
      = ((m.col 3).drop (item + m.start_imgs_offset)).take (m.imgs_obs + 1) := by
    rw [pySlice_of_range _ _ _ (by omega) (by omega) (by rw [hl3]; push_cast; omega)]
    have e1 : ((item : ℤ) + (m.start_imgs_offset : ℤ)).toNat
        = item + m.start_imgs_offset := by omega
    have e2 : ((item : ℤ) + (m.start_imgs_offset : ℤ) + (m.imgs_obs : ℤ) + 1
        - ((item : ℤ) + (m.start_imgs_offset : ℤ))).toNat = m.imgs_obs + 1 := by
      omega
    rw [e1, e2]
  have hwlen : (((m.col 3).drop (item + m.start_imgs_offset)).take
      (m.imgs_obs + 1)).length = m.imgs_obs + 1 := by
    rw [List.length_take, List.length_drop, hl3]
    omega
  have himgs : m.load_imgs (item : ℤ)
      = .ok (((m.col 3).drop (item + m.start_imgs_offset)).take (m.imgs_obs + 1)) := by
    unfold load_imgs
    rw [himgsw]
    unfold npStack
    rw [if_neg]
    intro hemp
    rw [List.isEmpty_iff] at hemp
    rw [hemp] at hwlen
    simp at hwlen
  have hcast_last : (item : ℤ) + (m.min_samples : ℤ) - 1
      = ((item + m.min_samples - 1 : ℕ) : ℤ) := by omega
  have hcast_now : (item : ℤ) + (m.min_samples : ℤ)
      = ((item + m.min_samples : ℕ) : ℤ) := by omega
  have hlast : pyGet (m.col 2) ((item : ℤ) + (m.min_samples : ℤ) - 1)
      = .ok (eGet (m.col 2) (item + m.min_samples - 1)) := by
    rw [hcast_last, pyGet_ok _ _ (by rw [hl2]; omega)]
  have hnow2 : pyGet (m.col 2) ((item : ℤ) + (m.min_samples : ℤ))
      = .ok (eGet (m.col 2) (item + m.min_samples)) := by
    rw [hcast_now, pyGet_ok _ _ (by rw [hl2]; omega)]
  have hnow1 : pyGet (m.col 1) ((item : ℤ) + (m.min_samples : ℤ))
      = .ok (eGet (m.col 1) (item + m.min_samples)) := by
    rw [hcast_now, pyGet_ok _ _ (by rw [hl1]; omega)]
  have hnow4 : pyGet (m.col 4) ((item : ℤ) + (m.min_samples : ℤ))
      = .ok (eGet (m.col 4) (item + m.min_samples)) := by
    rw [hcast_now, pyGet_ok _ _ (by rw [hl4]; omega)]
  have hnow5 : pyGet (m.col 5) ((item : ℤ) + (m.min_samples : ℤ))
      = .ok (eGet (m.col 5) (item + m.min_samples)) := by
    rw [hcast_now, pyGet_ok _ _ (by rw [hl5]; omega)]
  have hnow6 : pyGet (m.col 6) ((item : ℤ) + (m.min_samples : ℤ))
      = .ok (eGet (m.col 6) (item + m.min_samples)) := by
    rw [hcast_now, pyGet_ok _ _ (by rw [hl6]; omega)]
  simp only [get_transition, hacts, himgs, hlast, hnow1, hnow2, hnow4, hnow5,
    hnow6]

end MemLidar

lemma eGet_get? {V : Type} (l : List (Entry V)) (i : ℕ) (h : i < l.length) :
    l.get? i = some (eGet l i) := by
  rw [List.get?_eq_get h]
  simp [eGet, List.getD_eq_getElem?_getD, List.getElem?_eq_getElem h]

/-- The trailing element of any suffix (`drop j`, `j ≤ k`) of the window
`l[a : a+k+1]` is the raw element `l[a+k]`. -/
lemma getLast?_window {V : Type} (l : List (Entry V)) (a k j : ℕ) (hj : j ≤ k)
    (h : a + k + 1 ≤ l.length) :
    (((l.drop a).take (k + 1)).drop j).getLast? = some (eGet l (a + k)) := by
  have hW : ((l.drop a).take (k + 1)).length = k + 1 := by
    rw [List.length_take, List.length_drop]
    omega
  rw [List.getLast?_eq_get?]
  have hlen2 : (((l.drop a).take (k + 1)).drop j).length = k + 1 - j := by
    rw [List.length_drop, hW]
  rw [hlen2, List.get?_drop]
  have e1 : j + (k + 1 - j - 1) = k := by omega
  rw [e1, List.get?_take (by omega : k < k + 1), List.get?_drop]
  exact eGet_get? l (a + k) (by omega)

/-! ## C2: window reads of `get_transition` -/

/-- **C2.**  For `0 ≤ item < usable_length` (on a well-formed store with
`min_samples ≥ 1`), `get_transition` reads the action window as the
`act_buf_len + 1` contiguous stored actions starting at
`item + start_acts_offset` (split `[:-1]` / `[1:]`), the image window as
the `imgs_obs + 1` contiguous stored images starting at
`item + start_imgs_offset` (split likewise), and takes the scalar fields at
`idx_last = item + min_samples - 1` (last observation) and
`idx_now = item + min_samples` (reward, new action, new observation, done,
info). -/
theorem c2_window_reads {V : Type} (m : MemLidar V) (f32 : Entry V → Entry V)
    (item : ℕ) (hwf : m.wf m.rowCount) (hms : 1 ≤ m.min_samples)
    (hitem : item < m.lenMem) :
    m.get_transition f32 (item : ℤ)
      = .ok ⟨(eGet (m.col 2) (item + m.min_samples - 1),
              (((m.col 3).drop (item + m.start_imgs_offset)).take
                (m.imgs_obs + 1)).dropLast,
              (((m.col 1).drop (item + m.start_acts_offset)).take
                (m.act_buf_len + 1)).dropLast),
             eGet (m.col 1) (item + m.min_samples),
             f32 (eGet (m.col 5) (item + m.min_samples)),
             (eGet (m.col 2) (item + m.min_samples),
              (((m.col 3).drop (item + m.start_imgs_offset)).take
                (m.imgs_obs + 1)).drop 1,
              (((m.col 1).drop (item + m.start_acts_offset)).take
                (m.act_buf_len + 1)).drop 1),
             eGet (m.col 4) (item + m.min_samples),
             eGet (m.col 6) (item + m.min_samples)⟩ := by
  have hlen := MemLidar.wf_lenMem hwf
  rw [hlen] at hitem
  exact MemLidar.get_transition_spec m f32 m.rowCount item hwf hms (by omega)

/-- **C2 witness**: the spec's concrete scenario.  `mem10` stores rows
0–9 with `imgs_obs=4, act_buf_len=1` (so `min_samples=4`,
`start_acts_offset=3`, `usable_length=5`); extracting item 0 uses image
values 300–304 (stored positions 0–4), action values 103–104 (positions
3–4), the last observation's scalar 203 (position 3) and the new
observation's scalars 204/404/504/604 (position 4). -/
theorem c2_window_reads_witness :
    mem10.get_transition id ((0 : ℕ) : ℤ)
      = .ok ⟨(Entry.val 203,
              [Entry.val 300, Entry.val 301, Entry.val 302, Entry.val 303],
              [Entry.val 103]),
             Entry.val 104, Entry.val 404,
             (Entry.val 204,
              [Entry.val 301, Entry.val 302, Entry.val 303, Entry.val 304],
              [Entry.val 104]),
             Entry.val 504, Entry.val 604⟩ :=
  (c2_window_reads mem10 id 0 (by decide) (by decide) (by decide)).trans
    (by decide)

/-! ## C5: trailing alignment of the image and action windows -/

/-- **C5.**  For every valid item on a well-formed store (with at least one
image and one action of history), the trailing image of the new observation
window and the trailing action of the new action buffer both equal the raw
stored entries at row `item + min_samples` — whichever of `imgs_obs` and
`act_buf_len` is larger. -/
theorem c5_trailing_alignment {V : Type} (m : MemLidar V)
    (f32 : Entry V → Entry V) (item : ℕ) (hwf : m.wf m.rowCount)
    (himgs : 1 ≤ m.imgs_obs) (hact : 1 ≤ m.act_buf_len)
    (hitem : item < m.lenMem) :
    ∃ t : Transition V,
      m.get_transition f32 (item : ℤ) = .ok t
      ∧ t.new_obs.2.1.getLast? = some (eGet (m.col 3) (item + m.min_samples))
      ∧ t.new_obs.2.2.getLast? = some (eGet (m.col 1) (item + m.min_samples)) := by
  have hlen := MemLidar.wf_lenMem hwf
  rw [hlen] at hitem
  have hms : 1 ≤ m.min_samples := by
    have := le_max_left m.imgs_obs m.act_buf_len
    simp only [MemLidar.min_samples] at *
    omega
  have hsio := m.sio_add
  have hsao := m.sao_add
  have hl1 : (m.col 1).length = m.rowCount :=
    MemLidar.wf_col_length hwf 1 (by omega)
  have hl3 : (m.col 3).length = m.rowCount :=
    MemLidar.wf_col_length hwf 3 (by omega)
  refine ⟨_, MemLidar.get_transition_spec m f32 m.rowCount item hwf hms
    (by omega), ?_, ?_⟩
  · have h := getLast?_window (m.col 3) (item + m.start_imgs_offset)
      m.imgs_obs 1 himgs (by omega)
    rw [h]
    have e1 : item + m.start_imgs_offset + m.imgs_obs
        = item + m.min_samples := by omega
    rw [e1]
  · have h := getLast?_window (m.col 1) (item + m.start_acts_offset)
      m.act_buf_len 1 hact (by omega)
    rw [h]
    have e1 : item + m.start_acts_offset + m.act_buf_len
        = item + m.min_samples := by omega
    rw [e1]

/-- **C5 witness**: a configuration where the action history is the longer
one (`imgs_obs=1, act_buf_len=3`, `min_samples=3`): both windows' trailing
elements still land on raw row `item + min_samples = 3` (values 303 and
103). -/
theorem c5_trailing_alignment_witness :
    ∃ t : Transition ℕ,
      ((MemLidar.empty 1 3 100 : MemLidar ℕ).append_buffer
        (natBuf 0 10)).get_transition id ((0 : ℕ) : ℤ) = .ok t
      ∧ t.new_obs.2.1.getLast?
          = some (eGet (((MemLidar.empty 1 3 100 : MemLidar ℕ).append_buffer
              (natBuf 0 10)).col 3) 3)
      ∧ t.new_obs.2.2.getLast?
          = some (eGet (((MemLidar.empty 1 3 100 : MemLidar ℕ).append_buffer
              (natBuf 0 10)).col 1) 3) :=
  c5_trailing_alignment ((MemLidar.empty 1 3 100).append_buffer (natBuf 0 10))
    id 0 (by decide) (by decide) (by decide) (by decide)

/-! ## C8: behaviour of `get_transition` outside `[0, usable_length)` -/

lemma pySlice_nil {α : Type} (a b : ℤ) : pySlice ([] : List α) a b = [] := by
  simp [pySlice]

/-- **C8 (amended).**  On a well-formed store of `n` rows
(`min_samples ≥ 1`): for every `item` with `item > usable_length`
(equivalently `item ≥ n - min_samples`, including all large items) the
extraction signals an error (an `IndexError` from a scalar read, or a
`ValueError` from `np.stack` on an empty image slice) — but for every
`0 ≤ item ≤ n - min_samples - 1`, which *includes* `item = usable_length`
itself, `get_transition` silently succeeds; and sufficiently negative
items can silently succeed as well, assembling windows that wrap around
the end of the store (see the counterexample). -/
theorem c8_out_of_range {V : Type} (m : MemLidar V) (f32 : Entry V → Entry V)
    (n : ℕ) (hwf : m.wf n) (hms : 1 ≤ m.min_samples) :
    (∀ item : ℤ, (n : ℤ) - (m.min_samples : ℤ) ≤ item →
      (m.get_transition f32 item).isOk = false)
    ∧ (∀ item : ℕ, item + m.min_samples + 1 ≤ n →
      (m.get_transition f32 (item : ℤ)).isOk = true) := by
  have hl2 : (m.col 2).length = n := MemLidar.wf_col_length hwf 2 (by omega)
  have hl5 : (m.col 5).length = n := MemLidar.wf_col_length hwf 5 (by omega)
  constructor
  · intro item hitem
    simp only [MemLidar.get_transition]
    cases himgs : m.load_imgs item with
    | error e =>
      simp only [himgs]
      rfl
    | ok w =>
      simp only [himgs]
      have hn1 : 1 ≤ n := by
        rcases hnil : (m.col 3) with _ | ⟨x, xs⟩
        · exfalso
          unfold MemLidar.load_imgs at himgs
          rw [hnil, pySlice_nil] at himgs
          simp [npStack] at himgs
        · have h3 := MemLidar.wf_col_length hwf 3 (by omega)
          rw [hnil] at h3
          simp only [List.length_cons] at h3
          omega
      by_cases hlast : (n : ℤ) ≤ (item : ℤ) + (m.min_samples : ℤ) - 1
      · rw [pyGet_err_ge (m.col 2) _ (by rw [hl2]; omega)]
        rfl
      · have hcast : (item : ℤ) + (m.min_samples : ℤ) - 1
            = ((n - 1 : ℕ) : ℤ) := by omega
        rw [hcast, pyGet_ok (m.col 2) (n - 1) (by omega)]
        rw [pyGet_err_ge (m.col 5) _ (by rw [hl5]; omega)]
        rfl
  · intro item hitem
    rw [MemLidar.get_transition_spec m f32 n item hwf hms hitem]
    rfl

/-- **C8 counterexample.**  On the 10-row store `mem10`
(`usable_length = 5`): extraction at `item = usable_length = 5` silently
succeeds (the claim demands an `IndexError`-class failure), and extraction
at the negative `item = -9` silently succeeds as well, returning a
transition assembled from wrapped windows. -/
theorem c8_out_of_range_cex :
    mem10.lenMem = 5
    ∧ (mem10.get_transition id ((5 : ℕ) : ℤ)).isOk = true
    ∧ (mem10.get_transition id (-9)).isOk = true := by decide

/-- **C8 witness**: the amended theorem applied to `mem10` at `item = 6`
(error) and `item = 3` (success). -/
theorem c8_out_of_range_witness :
    (mem10.get_transition id (6 : ℤ)).isOk = false
    ∧ (mem10.get_transition id ((3 : ℕ) : ℤ)).isOk = true :=
  ⟨(c8_out_of_range mem10 id 10 (by decide) (by decide)).1 6 (by decide),
   (c8_out_of_range mem10 id 10 (by decide) (by decide)).2 3 (by decide)⟩

/-! ## C7: length-1 trajectories versus transitions -/

namespace TrajMemLidar

variable {V : Type}

lemma tcol_length (tm : TrajMemLidar V) (n : ℕ) (h7 : tm.data.length = 7)
    (hall : ∀ c ∈ tm.data, c.length = n) (j : ℕ) (hj : j < 7) :
    (tm.col j).length = n := by
  have hj' : j < tm.data.length := h7 ▸ hj
  unfold col
  rw [getD_of_lt _ _ _ hj']
  exact hall _ (List.get_mem _ _ _)

/-- Computation of `get_trajectory` with `traj_len = 1` on a well-formed
store: it returns exactly one new-observation window (scalar at
`idx_now = item + min_samples`, images `all_imgs[1 : imgs_obs+1]`, actions
`all_acts[1 : act_buf_len+1]`), one reward, one done and one info — and no
last-observation window and no new-action field. -/
theorem get_trajectory_one_spec (tm : TrajMemLidar V) (f32 : Entry V → Entry V)
    (n item : ℕ) (hT : tm.traj_len = 1) (h7 : tm.data.length = 7)
    (hall : ∀ c ∈ tm.data, c.length = n)
    (hitem : item + tm.min_samples + 1 ≤ n) :
    tm.get_trajectory f32 (item : ℤ)
      = .ok ([(eGet (tm.col 2) (item + tm.min_samples),
               (((tm.col 3).drop (item + tm.start_imgs_offset)).take
                 (tm.imgs_obs + 1)).drop 1,
               (((tm.col 1).drop (item + tm.start_acts_offset)).take
                 (tm.act_buf_len + 1)).drop 1)],
             [f32 (eGet (tm.col 5) (item + tm.min_samples))],
             [eGet (tm.col 4) (item + tm.min_samples)],
             [eGet (tm.col 6) (item + tm.min_samples)]) := by
  have hmax1 := le_max_left tm.imgs_obs tm.act_buf_len
  have hmax2 := le_max_right tm.imgs_obs tm.act_buf_len
  have hms_eq : tm.min_samples = max tm.imgs_obs tm.act_buf_len := by
    simp [min_samples, hT]
  have hsio : tm.start_imgs_offset + tm.imgs_obs = tm.min_samples := by
    simp only [start_imgs_offset]
    omega
  have hsao : tm.start_acts_offset + tm.act_buf_len = tm.min_samples := by
    simp only [start_acts_offset]
    omega
  have hl1 : (tm.col 1).length = n := tm.tcol_length n h7 hall 1 (by omega)
  have hl2 : (tm.col 2).length = n := tm.tcol_length n h7 hall 2 (by omega)
  have hl3 : (tm.col 3).length = n := tm.tcol_length n h7 hall 3 (by omega)
  have hl4 : (tm.col 4).length = n := tm.tcol_length n h7 hall 4 (by omega)
  have hl5 : (tm.col 5).length = n := tm.tcol_length n h7 hall 5 (by omega)
  have hl6 : (tm.col 6).length = n := tm.tcol_length n h7 hall 6 (by omega)
  have hacts : tm.load_acts_traj (item : ℤ)
      = ((tm.col 1).drop (item + tm.start_acts_offset)).take
          (tm.act_buf_len + 1) := by
    unfold load_acts_traj
    rw [hT]
    rw [pySlice_of_range _ _ _ (by omega) (by push_cast; omega)
      (by rw [hl1]; push_cast; omega)]
    have e1 : ((item : ℤ) + (tm.start_acts_offset : ℤ)).toNat
        = item + tm.start_acts_offset := by omega
    have e2 : ((item : ℤ) + (tm.start_acts_offset : ℤ) + (tm.act_buf_len : ℤ)
        + ((1 : ℕ) : ℤ) - ((item : ℤ) + (tm.start_acts_offset : ℤ))).toNat
        = tm.act_buf_len + 1 := by omega
    rw [e1, e2]
  have himgsw : pySlice (tm.col 3) ((item : ℤ) + (tm.start_imgs_offset : ℤ))
      ((item : ℤ) + (tm.start_imgs_offset : ℤ) + (tm.imgs_obs : ℤ) + ((1 : ℕ) : ℤ))
      = ((tm.col 3).drop (item + tm.start_imgs_offset)).take
          (tm.imgs_obs + 1) := by
    rw [pySlice_of_range _ _ _ (by omega) (by push_cast; omega)
      (by rw [hl3]; push_cast; omega)]
    have e1 : ((item : ℤ) + (tm.start_imgs_offset : ℤ)).toNat
        = item + tm.start_imgs_offset := by omega
    have e2 : ((item : ℤ) + (tm.start_imgs_offset : ℤ) + (tm.imgs_obs : ℤ)
        + ((1 : ℕ) : ℤ) - ((item : ℤ) + (tm.start_imgs_offset : ℤ))).toNat
        = tm.imgs_obs + 1 := by omega
    rw [e1, e2]
  have hWilen : (((tm.col 3).drop (item + tm.start_imgs_offset)).take
      (tm.imgs_obs + 1)).length = tm.imgs_obs + 1 := by
    rw [List.length_take, List.length_drop, hl3]
    omega
  have hWalen : (((tm.col 1).drop (item + tm.start_acts_offset)).take
      (tm.act_buf_len + 1)).length = tm.act_buf_len + 1 := by
    rw [List.length_take, List.length_drop, hl1]
    omega
  have himgs : tm.load_imgs_traj (item : ℤ)
      = .ok (((tm.col 3).drop (item + tm.start_imgs_offset)).take
          (tm.imgs_obs + 1)) := by
    unfold load_imgs_traj
    rw [hT, himgsw]
    unfold npStack
    rw [if_neg]
    intro hemp
    rw [List.isEmpty_iff] at hemp
    rw [hemp] at hWilen
    simp at hWilen
  have hinner_i : pySlice (((tm.col 3).drop (item + tm.start_imgs_offset)).take
        (tm.imgs_obs + 1)) 1 ((tm.imgs_obs : ℤ) + 1)
      = (((tm.col 3).drop (item + tm.start_imgs_offset)).take
          (tm.imgs_obs + 1)).drop 1 := by
    rw [pySlice_of_range _ _ _ (by omega) (by omega) (by rw [hWilen]; push_cast; omega)]
    have e1 : ((1 : ℤ)).toNat = 1 := rfl
    have e2 : ((tm.imgs_obs : ℤ) + 1 - 1).toNat = tm.imgs_obs := by omega
    rw [e1, e2]
    exact List.take_all_of_le (by rw [List.length_drop, hWilen]; omega)
  have hinner_a : pySlice (((tm.col 1).drop (item + tm.start_acts_offset)).take
        (tm.act_buf_len + 1)) 1 ((tm.act_buf_len : ℤ) + 1)
      = (((tm.col 1).drop (item + tm.start_acts_offset)).take
          (tm.act_buf_len + 1)).drop 1 := by
    rw [pySlice_of_range _ _ _ (by omega) (by omega) (by rw [hWalen]; push_cast; omega)]
    have e1 : ((1 : ℤ)).toNat = 1 := rfl
    have e2 : ((tm.act_buf_len : ℤ) + 1 - 1).toNat = tm.act_buf_len := by omega
    rw [e1, e2]
    exact List.take_all_of_le (by rw [List.length_drop, hWalen]; omega)
  have hcast_now : (item : ℤ) + (tm.min_samples : ℤ)
      = ((item + tm.min_samples : ℕ) : ℤ) := by omega
  have hnow2 : pyGet (tm.col 2) ((item : ℤ) + (tm.min_samples : ℤ))
      = .ok (eGet (tm.col 2) (item + tm.min_samples)) := by
    rw [hcast_now, pyGet_ok _ _ (by rw [hl2]; omega)]
  have hnow4 : pyGet (tm.col 4) ((item : ℤ) + (tm.min_samples : ℤ))
      = .ok (eGet (tm.col 4) (item + tm.min_samples)) := by
    rw [hcast_now, pyGet_ok _ _ (by rw [hl4]; omega)]
  have hnow5 : pyGet (tm.col 5) ((item : ℤ) + (tm.min_samples : ℤ))
      = .ok (eGet (tm.col 5) (item + tm.min_samples)) := by
    rw [hcast_now, pyGet_ok _ _ (by rw [hl5]; omega)]
  have hnow6 : pyGet (tm.col 6) ((item : ℤ) + (tm.min_samples : ℤ))
      = .ok (eGet (tm.col 6) (item + tm.min_samples)) := by
    rw [hcast_now, pyGet_ok _ _ (by rw [hl6]; omega)]
  have hr1 : List.range 1 = [0] := rfl
  simp only [get_trajectory, hacts, himgs, hT, hr1, exceptMap,
    Nat.cast_zero, Nat.cast_one, add_zero, hinner_i, hinner_a, hnow2, hnow4,
    hnow5, hnow6]

end TrajMemLidar

/-- **C7 (amended).**  On the same stored data, with the same `imgs_obs`
and `act_buf_len` and `traj_len = 1`, `get_trajectory(item)` agrees with
`get_transition(item)` on the new observation window, the reward, the done
flag and the info — each as a one-element trajectory.  It does *not* return
the last observation window or the new action: the trajectory result has
only the four fields `(augm_obs_traj, rew_traj, done_traj, info_traj)`. -/
theorem c7_traj_singleton {V : Type} (tm : TrajMemLidar V) (m : MemLidar V)
    (f32 : Entry V → Entry V) (item : ℕ)
    (hT : tm.traj_len = 1) (hI : tm.imgs_obs = m.imgs_obs)
    (hA : tm.act_buf_len = m.act_buf_len) (hD : tm.data = m.data)
    (hwf : m.wf m.rowCount) (hms : 1 ≤ m.min_samples)
    (hitem : item < m.lenMem) :
    ∃ t : Transition V,
      m.get_transition f32 (item : ℤ) = .ok t
      ∧ tm.get_trajectory f32 (item : ℤ)
          = .ok ([t.new_obs], [t.rew], [t.dn], [t.inf]) := by
  have hlen := MemLidar.wf_lenMem hwf
  rw [hlen] at hitem
  have htm_ms : tm.min_samples = m.min_samples := by
    simp [TrajMemLidar.min_samples, MemLidar.min_samples, hT, hI, hA]
  have htm_sio : tm.start_imgs_offset = m.start_imgs_offset := by
    simp [TrajMemLidar.start_imgs_offset, MemLidar.start_imgs_offset,
      htm_ms, hI]
  have htm_sao : tm.start_acts_offset = m.start_acts_offset := by
    simp [TrajMemLidar.start_acts_offset, MemLidar.start_acts_offset,
      htm_ms, hA]
  have hcol : ∀ j : ℕ, tm.col j = m.col j := by
    intro j
    simp [TrajMemLidar.col, MemLidar.col, hD]
  refine ⟨_, MemLidar.get_transition_spec m f32 m.rowCount item hwf hms
    (by omega), ?_⟩
  rw [TrajMemLidar.get_trajectory_one_spec tm f32 m.rowCount item hT
    (by rw [hD]; exact hwf.1) (by rw [hD]; exact hwf.2)
    (by rw [htm_ms]; omega)]
  simp only [hcol, htm_ms, htm_sio, htm_sao, hI, hA]

/-- The concrete length-1 trajectory memory sharing `mem10`'s data. -/
def tmem10 : TrajMemLidar ℕ := ⟨4, 1, 1, 100, mem10.data⟩

/-- All entries occurring anywhere in a `get_trajectory` result. -/
def trajEntries
    (r : List (Obs ℕ) × List (Entry ℕ) × List (Entry ℕ) × List (Entry ℕ)) :
    List (Entry ℕ) :=
  (r.1.map (fun o => o.1 :: (o.2.1 ++ o.2.2))).join ++ r.2.1 ++ r.2.2.1 ++ r.2.2.2

/-- **C7 counterexample.**  On `mem10` / `tmem10` at item 0 the transition's
last-observation scalar is the entry 203 and its new action the entry 104,
but the value 203 occurs nowhere in the trajectory output: the length-1
trajectory cannot equal the transition field-for-field, because the
trajectory carries no last-observation window (and no separate new-action
field) at all. -/
theorem c7_traj_singleton_cex :
    Except.map (fun t => t.last_obs.1) (mem10.get_transition id ((0 : ℕ) : ℤ))
      = .ok (Entry.val 203)
    ∧ Except.map (fun r => decide (Entry.val 203 ∈ trajEntries r))
        (tmem10.get_trajectory id ((0 : ℕ) : ℤ)) = .ok false := by decide

/-- **C7 witness**: the amended theorem applied to `tmem10` / `mem10` at
item 0. -/
theorem c7_traj_singleton_witness :
    ∃ t : Transition ℕ,
      mem10.get_transition id ((0 : ℕ) : ℤ) = .ok t
      ∧ tmem10.get_trajectory id ((0 : ℕ) : ℤ)
          = .ok ([t.new_obs], [t.rew], [t.dn], [t.inf]) :=
  c7_traj_singleton tmem10 mem10 id 0 rfl rfl rfl rfl (by decide) (by decide)
    (by decide)

/-! ## C6: the backpressure ratio state machine -/

lemma starved_iff (u s : ℕ) (mx : ℚ) :
    starvedQ u s mx ↔ (s = 0 ∨ (u : ℚ) > mx * (s : ℚ)) := by
  unfold starvedQ ratioOrNeg
  rcases Nat.eq_zero_or_pos s with hs | hs
  · subst hs
    simp
  · rw [if_pos hs]
    have hs' : (0 : ℚ) < (s : ℚ) := by positivity
    constructor
    · rintro (h | h)
      · right
        exact (lt_div_iff hs').mp h
      · exfalso
        have hnn : (0 : ℚ) ≤ (u : ℚ) / (s : ℚ) := by positivity
        rw [h] at hnn
        linarith
    · rintro (h | h)
      · omega
      · exact Or.inl ((lt_div_iff hs').mpr h)

lemma not_starved_bound (u s : ℕ) (mx : ℚ) (h : ¬ starvedQ u s mx) :
    0 < s ∧ (u : ℚ) ≤ mx * (s : ℚ) := by
  rw [starved_iff] at h
  push_neg at h
  exact ⟨by omega, h.2⟩

lemma pollLoop_post (u : ℕ) (mx : ℚ) :
    ∀ (bufs : List ℕ) (s sf : ℕ) (sl : List ℕ),
      pollLoop u mx s bufs = .ok (sf, sl) →
      ¬ starvedQ u sf mx ∧ ∀ x ∈ sl, starvedQ u x mx := by
  intro bufs
  induction bufs with
  | nil =>
    intro s sf sl h
    simp [pollLoop] at h
  | cons b rest ih =>
    intro s sf sl h
    unfold pollLoop at h
    by_cases hst : starvedQ u (s + b) mx
    · rw [if_pos hst] at h
      cases hrec : pollLoop u mx (s + b) rest with
      | ok p =>
        rcases p with ⟨sf2, sl2⟩
        rw [hrec] at h
        simp only [Except.ok.injEq, Prod.mk.injEq] at h
        obtain ⟨h1, h2⟩ := h
        subst h1
        subst h2
        obtain ⟨hA, hB⟩ := ih (s + b) sf2 sl2 hrec
        refine ⟨hA, ?_⟩
        intro x hx
        rw [List.mem_cons] at hx
        rcases hx with hx | hx
        · rw [hx]
          exact hst
        · exact hB x hx
      | error e =>
        rw [hrec] at h
        simp at h
    · rw [if_neg hst] at h
      simp only [Except.ok.injEq, Prod.mk.injEq] at h
      obtain ⟨h1, h2⟩ := h
      subst h1
      subst h2
      exact ⟨hst, by simp⟩

lemma check_ratio_post (u : ℕ) (mx : ℚ) (s : ℕ) (bufs : List ℕ) (sf : ℕ)
    (sl : List ℕ) (h : check_ratio u mx s bufs = .ok (sf, sl)) :
    ¬ starvedQ u sf mx ∧ ∀ x ∈ sl, starvedQ u x mx := by
  unfold check_ratio at h
  by_cases hst : starvedQ u s mx
  · rw [if_pos hst] at h
    exact pollLoop_post u mx bufs s sf sl h
  · rw [if_neg hst] at h
    simp only [Except.ok.injEq, Prod.mk.injEq] at h
    obtain ⟨h1, h2⟩ := h
    subst h1
    subst h2
    exact ⟨hst, by simp⟩

lemma runRound_inv (mx : ℚ) :
    ∀ (streams : List (List ℕ)) (u s uf sf : ℕ) (obs : List (ℕ × ℕ)),
      runRound mx u s streams = .ok (uf, sf, obs) →
      ¬ starvedQ u s mx →
      ∀ p ∈ obs, 0 < p.2 ∧ (p.1 : ℚ) ≤ mx * (p.2 : ℚ) + 1 := by
  intro streams
  induction streams with
  | nil =>
    intro u s uf sf obs h hns
    simp only [runRound, Except.ok.injEq, Prod.mk.injEq] at h
    obtain ⟨h1, h2, h3⟩ := h
    subst h3
    simp
  | cons bufs rest ih =>
    intro u s uf sf obs h hns
    unfold runRound at h
    cases hcr : check_ratio (u + 1) mx s bufs with
    | error e =>
      simp only [hcr] at h
      exact Except.noConfusion h
    | ok p =>
      rcases p with ⟨s2, sl⟩
      simp only [hcr] at h
      cases hrr : runRound mx (u + 1) s2 rest with
      | error e =>
        simp only [hrr] at h
        exact Except.noConfusion h
      | ok q =>
        rcases q with ⟨uf2, q2⟩
        rcases q2 with ⟨sf2, obs2⟩
        simp only [hrr, Except.ok.injEq, Prod.mk.injEq] at h
        obtain ⟨h1, h2, h3⟩ := h
        subst h3
        have hb := not_starved_bound u s mx hns
        have hpost : ¬ starvedQ (u + 1) s2 mx :=
          (check_ratio_post (u + 1) mx s bufs s2 sl hcr).1
        have hb2 := not_starved_bound (u + 1) s2 mx hpost
        intro p hp
        rw [List.mem_cons, List.mem_cons] at hp
        rcases hp with hp | hp | hp
        · rw [hp]
          refine ⟨hb.1, ?_⟩
          push_cast
          linarith [hb.2]
        · rw [hp]
          refine ⟨hb2.1, ?_⟩
          push_cast
          push_cast at hb2
          linarith [hb2.2]
        · exact ih (u + 1) s2 uf2 sf2 obs2 hrr hpost p hp

/-- **C6.**  The starvation classifier and pacing of the training loop:
(1) `check_ratio` classifies `STARVED` exactly when `total_samples == 0` or
`total_updates/total_samples` strictly exceeds
`max_training_steps_per_env_step` (a ratio exactly equal to the bound is
not starved); (2) concretely, `1000/1000` with bound `1.0` is not starved
while `1001/1000` is; (3) whenever the polling loop of `check_ratio`
returns, the ratio is within the bound, and every sleep it performed
happened at a state that was still over-ratio; (4) along a round in which
`check_ratio` is re-invoked after every single update, every observation
point `(total_updates, total_samples)` — right after an update and right
after the following check — satisfies
`total_updates ≤ bound·total_samples + 1`, i.e. the ratio never exceeds the
bound by more than one training step's contribution. -/
theorem c6_ratio_pacing :
    (∀ (u s : ℕ) (mx : ℚ),
      starvedQ u s mx ↔ (s = 0 ∨ (u : ℚ) > mx * (s : ℚ)))
    ∧ (¬ starvedQ 1000 1000 1 ∧ starvedQ 1001 1000 1)
    ∧ (∀ (u : ℕ) (mx : ℚ) (s : ℕ) (bufs : List ℕ) (sf : ℕ) (sl : List ℕ),
        check_ratio u mx s bufs = .ok (sf, sl) →
        ¬ starvedQ u sf mx ∧ ∀ x ∈ sl, starvedQ u x mx)
    ∧ (∀ (mx : ℚ) (streams : List (List ℕ)) (u s uf sf : ℕ)
        (obs : List (ℕ × ℕ)),
        runRound mx u s streams = .ok (uf, sf, obs) →
        ¬ starvedQ u s mx →
        ∀ p ∈ obs, 0 < p.2 ∧ (p.1 : ℚ) ≤ mx * (p.2 : ℚ) + 1) :=
  ⟨starved_iff,
   ⟨by rw [starved_iff]; norm_num, by rw [starved_iff]; norm_num⟩,
   fun u mx s bufs sf sl h => check_ratio_post u mx s bufs sf sl h,
   fun mx streams u s uf sf obs h hns => runRound_inv mx streams u s uf sf obs h hns⟩

/-- **C6 witness**: the classifier at `1000/1000` and `1001/1000`, the
polling-loop postcondition on the concrete run
`check_ratio 1001 1.0 1000 [5]`, and the round invariant on the concrete
round `runRound 1.0 1000 1000 [[5], []]`. -/
theorem c6_ratio_pacing_witness :
    (¬ starvedQ 1001 1005 1 ∧ ∀ x ∈ ([] : List ℕ), starvedQ 1001 x 1)
    ∧ (∀ p ∈ [((1001 : ℕ), (1000 : ℕ)), (1001, 1005), (1002, 1005),
        (1002, 1005)], 0 < p.2 ∧ (p.1 : ℚ) ≤ 1 * (p.2 : ℚ) + 1) := by
  have hs0 : ¬ starvedQ 1000 1000 1 := by rw [starved_iff]; norm_num
  have hs1 : starvedQ 1001 1000 1 := by rw [starved_iff]; norm_num
  have hs2 : ¬ starvedQ 1001 1005 1 := by rw [starved_iff]; norm_num
  have hs3 : ¬ starvedQ 1002 1005 1 := by rw [starved_iff]; norm_num
  have hcr : check_ratio 1001 1 1000 [5] = .ok (1005, []) := by
    unfold check_ratio
    rw [if_pos hs1]
    norm_num [pollLoop, hs2]
  have hrr : runRound 1 1000 1000 [[5], []]
      = .ok (1002, 1005,
          [(1001, 1000), (1001, 1005), (1002, 1005), (1002, 1005)]) := by
    norm_num [runRound, check_ratio, pollLoop, hs1, hs2, hs3]
  exact ⟨c6_ratio_pacing.2.2.1 1001 1 1000 [5] 1005 [] hcr,
    fun p hp => c6_ratio_pacing.2.2.2 1 [[5], []] 1000 1000 1002 1005
      [(1001, 1000), (1001, 1005), (1002, 1005), (1002, 1005)] hrr hs0 p hp⟩

/-! ## C9: empty buffers are a zero contribution -/

namespace MemLidar

variable {V : Type}

lemma mkD0_nil (first : ℤ) : mkD0 (V := V) first [] = [] := rfl
lemma mkD1_nil : mkD1 (V := V) [] = [] := rfl
lemma mkD2_nil : mkD2 (V := V) [] = [] := rfl
lemma mkD3_nil : mkD3 (V := V) [] = [] := rfl
lemma mkD4_nil : mkD4 (V := V) [] = [] := rfl
lemma mkD5_nil : mkD5 (V := V) [] = [] := rfl
lemma mkD6_nil : mkD6 (V := V) [] = [] := rfl

lemma addTo_nil (d : List (List (Entry V))) (j : ℕ) : addTo d j [] = d := by
  rw [addTo, List.append_nil]
  exact set_getD_self d j []

end MemLidar

/-- **C9.**  An empty buffer retrieved by `update_buffer` is a zero
contribution: `total_samples` is unchanged, the memory's externally visible
length (`__len__`) is unchanged (on any state respecting the capacity
invariant `__len__ ≤ memory_size`, which every append maintains), and the
starved polling loop consumes the empty buffer, re-evaluates the ratio
unchanged, records one more sleep, and continues polling rather than
failing. -/
theorem c9_empty_buffer (V : Type) :
    (∀ st : TrainerState V,
      (update_buffer st []).total_samples = st.total_samples)
    ∧ (∀ m : MemLidar V, m.lenMem ≤ m.memory_size →
        (memAppend m []).lenMem = m.lenMem)
    ∧ (∀ (u : ℕ) (mx : ℚ) (s : ℕ) (rest : List ℕ), starvedQ u s mx →
        pollLoop u mx s (0 :: rest)
          = match pollLoop u mx s rest with
            | .ok (sf, sl) => .ok (sf, s :: sl)
            | .error sf => .error sf) := by
  refine ⟨?_, ?_, ?_⟩
  · intro st
    simp [update_buffer]
  · intro m hle
    obtain ⟨i, a, ms, d⟩ := m
    unfold memAppend MemLidar.append_buffer
    simp only [MemLidar.mkD0_nil, MemLidar.mkD1_nil, MemLidar.mkD2_nil,
      MemLidar.mkD3_nil, MemLidar.mkD4_nil, MemLidar.mkD5_nil,
      MemLidar.mkD6_nil, MemLidar.addTo_nil, gt_iff_lt]
    by_cases hpos : 0 < (⟨i, a, ms, d⟩ : MemLidar V).lenMem
    · rw [if_pos hpos]
      rw [if_neg (by
        have he : (⟨i, a, ms, d⟩ : MemLidar V).lenMem ≤ ms := hle
        omega)]
    · rw [if_neg hpos]
      have hz : (⟨i, a, ms, d⟩ : MemLidar V).lenMem = 0 := by omega
      have hlen1 : (⟨i, a, ms,
          d ++ [[], [], [], [], [], [], []]⟩ : MemLidar V).lenMem = 0 := by
        rcases d with _ | ⟨c, cs⟩
        · simp [MemLidar.lenMem]
        · simp [MemLidar.lenMem] at hz ⊢
          exact hz
      rw [if_neg (by rw [hlen1]; omega)]
      rw [hlen1, hz]
  · intro u mx s rest h
    conv_lhs => rw [pollLoop]
    simp only [Nat.add_zero]
    rw [if_pos h]

/-- **C9 witness**: the three clauses at concrete inputs — a trainer state
holding `mem10` with 7 samples counted, the concrete memory `mem10`, and
the starved polling state `1001/1000` receiving an empty buffer. -/
theorem c9_empty_buffer_witness :
    (update_buffer (⟨mem10, 7, 3⟩ : TrainerState ℕ) []).total_samples = 7
    ∧ (memAppend mem10 ([] : List (Sample ℕ))).lenMem = mem10.lenMem
    ∧ pollLoop 1001 1 1000 (0 :: [5])
        = (match pollLoop 1001 1 1000 [5] with
           | .ok (sf, sl) => .ok (sf, 1000 :: sl)
           | .error sf => .error sf) := by
  have hs1 : starvedQ 1001 1000 1 := by rw [starved_iff]; norm_num
  exact ⟨(c9_empty_buffer ℕ).1 ⟨mem10, 7, 3⟩,
    (c9_empty_buffer ℕ).2.1 mem10 (by decide),
    (c9_empty_buffer ℕ).2.2 1001 1 1000 [5] hs1⟩
